import Mathlib

/-!
Shallow embedding of the coefficient-series core of `shtoolkit`
(`src/shtoolkit/shcoeff.py`: classes `SpharmCoeff` and `ReplaceCoeff`).

Modelling conventions:
* Machine floats are modelled by `RFloat`: either the quiet NaN or an exact
  rational.  All comparisons against NaN are false, and NaN propagates through
  arithmetic, matching IEEE / numpy semantics for the operations the code uses.
* A numpy 3-D coefficient grid `[type, degree, order]` is a nested list of
  rationals (`Grid`); a 4-D batch is a list of grids (`Batch`).  numpy arrays
  are rectangular, so shape equality of two arrays is modelled by equality of
  the nested length structure.
* Fallible operations return `Except String`, carrying the message the Python
  code would raise (`ValueError`, `NameError`/`UnboundLocalError`, ...).
* External collaborators that live outside `shcoeff.py` (the GIA-model reader,
  the `gauss_smooth`/`fan_smooth` kernel weights) are parameters of the
  embedded functions, exactly as the spec treats them (pure collaborators).
-/

/-- A machine float: NaN or an exact rational value. -/
inductive RFloat where
  | nan : RFloat
  | val : ℚ → RFloat
deriving DecidableEq, Repr

namespace RFloat

/-- Float subtraction; NaN propagates. -/
def sub : RFloat → RFloat → RFloat
  | val a, val b => val (a - b)
  | _, _ => nan

/-- Float absolute value; NaN propagates (models `np.abs`). -/
def fabs : RFloat → RFloat
  | val a => val |a|
  | nan => nan

/-- Float strict `<`; any comparison with NaN is false. -/
def flt : RFloat → RFloat → Bool
  | val a, val b => decide (a < b)
  | _, _ => false

/-- Float strict `>`; any comparison with NaN is false. -/
def fgt : RFloat → RFloat → Bool
  | val a, val b => decide (b < a)
  | _, _ => false

/-- Pairwise minimum as `np.min` computes it: NaN propagates. -/
def fmin : RFloat → RFloat → RFloat
  | val a, val b => val (min a b)
  | _, _ => nan

/-- Rendering of a float into an error message (stands in for `f"{t:.4f}"`). -/
def fmt : RFloat → String
  | nan => "nan"
  | val q => toString q

end RFloat

/-- `np.min` over a 1-D array: NaN-propagating minimum.  (numpy raises on an
empty array; the code only applies it to nonempty residual vectors, and the
empty case here returns NaN.) -/
def minList : List RFloat → RFloat
  | [] => RFloat.nan
  | [x] => x
  | x :: xs => x.fmin (minList xs)

/-- `np.nanmin`: minimum ignoring NaN entries; all-NaN gives NaN. -/
def nanminList (l : List RFloat) : RFloat :=
  match l.filterMap (fun x => match x with | RFloat.val q => some q | RFloat.nan => none) with
  | [] => RFloat.nan
  | q :: qs => RFloat.val (qs.foldl min q)

/-- Does `x` replace the current best in numpy's arg-min scan?  A NaN beats any
non-NaN best (numpy reports the first NaN); among numbers, strictly smaller
wins, so ties keep the earliest index. -/
def argminBetter (x best : RFloat) : Bool :=
  match x, best with
  | RFloat.nan, RFloat.nan => false
  | RFloat.nan, RFloat.val _ => true
  | RFloat.val _, RFloat.nan => false
  | RFloat.val a, RFloat.val b => decide (a < b)

def argminAux (best : RFloat) (bestIdx i : Nat) : List RFloat → Nat
  | [] => bestIdx
  | x :: xs =>
    if argminBetter x best then argminAux x i (i + 1) xs
    else argminAux best bestIdx (i + 1) xs

/-- `np.argmin` over a 1-D array (first index attaining the minimum; first NaN
wins when NaN is present). -/
def argminList : List RFloat → Nat
  | [] => 0
  | x :: xs => argminAux x 0 1 xs

/-- First index holding the value `val m`. -/
def idxOfVal (m : ℚ) : List RFloat → Nat
  | [] => 0
  | x :: xs => if x = RFloat.val m then 0 else idxOfVal m xs + 1

/-- `np.nanargmin`: index of the smallest non-NaN entry (first on ties);
raises `ValueError` on an all-NaN slice. -/
def nanargminList (l : List RFloat) : Except String Nat :=
  match nanminList l with
  | RFloat.nan => Except.error "All-NaN slice encountered"
  | RFloat.val m => Except.ok (idxOfVal m l)

/-- One elementwise test of `np.allclose` with `atol = 1/2` and numpy's
default `rtol = 1e-5`: `|a - b| <= atol + rtol * |b|`; false on NaN. -/
def closePair : RFloat → RFloat → Bool
  | RFloat.val a, RFloat.val b => decide (|a - b| ≤ 1/2 + 1/100000 * |b|)
  | _, _ => false

/-- `np.allclose(a, b, atol=0.5)` on two epoch vectors of equal length (the
only way the code reaches it, since the operand batch shapes already agree). -/
def allclose (a b : List RFloat) : Bool :=
  a.length = b.length && (List.zipWith closePair a b).all id

/-- A 3-D coefficient grid `[type][degree][order]` of exact rationals. -/
abbrev Grid := List (List (List ℚ))

/-- A 4-D batch of coefficient grids, one per epoch. -/
abbrev Batch := List Grid

namespace Grid

/-- Elementwise sum of two grids of the same shape. -/
def add (g h : Grid) : Grid :=
  List.zipWith (List.zipWith (List.zipWith (fun a b => a + b))) g h

/-- Elementwise difference of two grids of the same shape. -/
def sub (g h : Grid) : Grid :=
  List.zipWith (List.zipWith (List.zipWith (fun a b => a - b))) g h

/-- Elementwise product (models `coeffs * weight` for the smoothing weight). -/
def mul (g h : Grid) : Grid :=
  List.zipWith (List.zipWith (List.zipWith (fun a b => a * b))) g h

/-- Scalar multiple of a grid (models `epoch * gia_trend`). -/
def scale (q : ℚ) (g : Grid) : Grid :=
  g.map (List.map (List.map (fun a => q * a)))

/-- The nested length structure; two rectangular numpy arrays have equal
`.shape` iff these agree. -/
def shape (g : Grid) : List (List Nat) :=
  g.map (List.map List.length)

/-- The all-zero grid of the same shape as `g`. -/
def zeroLike (g : Grid) : Grid :=
  g.map (List.map (List.map (fun _ => (0 : ℚ))))

/-- Read one cell `g[c][l][m]` (0 outside the array, unreachable in use). -/
def cell (g : Grid) (c l m : Nat) : ℚ :=
  (((g.getD c []).getD l []).getD m 0)

/-- Overwrite one cell `g[c][l][m] = v`. -/
def setCell (g : Grid) (c l m : Nat) (v : ℚ) : Grid :=
  g.set c ((g.getD c []).set l (((g.getD c []).getD l []).set m v))

end Grid

namespace Batch

/-- Elementwise sum of two equal-shape batches. -/
def addB (a b : Batch) : Batch := List.zipWith Grid.add a b

/-- Elementwise difference of two equal-shape batches. -/
def subB (a b : Batch) : Batch := List.zipWith Grid.sub a b

/-- Nested length structure of a 4-D batch (numpy `.shape` equality). -/
def shapeB (b : Batch) : List (List (List Nat)) := b.map Grid.shape

/-- `mean(axis=0)`: the elementwise mean grid across the batch. -/
def meanAxis0 (b : Batch) : Grid :=
  match b with
  | [] => []
  | g :: gs => Grid.scale (1 / (gs.length + 1 : ℚ)) (gs.foldl Grid.add g)

end Batch

/-- The residual vector `np.abs(ref - t)` of a query epoch against a
reference epoch sequence. -/
def residualOf (ref : List RFloat) (t : RFloat) : List RFloat :=
  ref.map (fun r => (r.sub t).fabs)

/-- The matched-path acceptance test of `__add__`/`__sub__`:
`np.min(residual) < 0.05` (strict, and false whenever NaN poisons the
minimum). -/
def acceptsTight (ref : List RFloat) (t : RFloat) : Bool :=
  (minList (residualOf ref t)).flt (RFloat.val (1/20))

/-- The `SpharmCoeff` container after construction: `coeffs` is always 4-D
(`__init__` wraps a 3-D input into a batch of one), `epochs` is always an
array. -/
structure SpharmCoeff where
  coeffs : Batch
  epochs : List RFloat
  unit : String
  errors : Option Batch
  error_kind : Option String
  name : Option String
deriving DecidableEq, Repr

namespace SpharmCoeff

/-- `__len__`: after construction `coeffs` is always 4-D, so this is
`coeffs.shape[0]`. -/
def length (s : SpharmCoeff) : Nat := s.coeffs.length

/-- The shape of a batch entry, i.e. `coeffs.shape[1:]` of a rectangular
4-D array. -/
def tailShape (b : Batch) : List (List Nat) := Grid.shape (b.headD [])

/-- The matched-path alignment loop shared by `__add__` and `__sub__`:
for each (index, epoch) of the left operand, search the right operand's
epochs with `np.min`/`np.argmin` under the strict `< 0.05` test, combining
in place on a copy and counting matches. -/
def matchLoop (op : Grid → Grid → Grid) (otherEp : List RFloat) (otherCs : Batch) :
    List (Nat × RFloat) → Batch → Nat → Batch × Nat
  | [], acc, count => (acc, count)
  | (idx, t) :: rest, acc, count =>
    if acceptsTight otherEp t then
      matchLoop op otherEp otherCs rest
        (acc.set idx (op (acc.getD idx [])
          (otherCs.getD (argminList (residualOf otherEp t)) []))) (count + 1)
    else
      matchLoop op otherEp otherCs rest acc count

/-- `SpharmCoeff.__add__` restricted to a `SpharmCoeff` right operand. -/
def add (a b : SpharmCoeff) : Except String SpharmCoeff :=
  if Batch.shapeB a.coeffs = Batch.shapeB b.coeffs ∧ allclose a.epochs b.epochs = true then
    Except.ok { a with coeffs := Batch.addB a.coeffs b.coeffs }
  else if tailShape a.coeffs = tailShape b.coeffs then
    let r := matchLoop Grid.add b.epochs b.coeffs a.epochs.enum a.coeffs 0
    if r.2 = a.epochs.length then Except.ok { a with coeffs := r.1 }
    else
      Except.error ("Invalid value of add_counts <" ++ toString r.2 ++ ">, must be "
        ++ toString a.epochs.length ++ ".")
  else
    Except.error "UnboundLocalError: local variable referenced before assignment"

/-- `SpharmCoeff.__sub__` restricted to a `SpharmCoeff` right operand.
Note: on the exact path the source computes `self.coeffs + other.coeffs`. -/
def subS (a b : SpharmCoeff) : Except String SpharmCoeff :=
  if Batch.shapeB a.coeffs = Batch.shapeB b.coeffs ∧ allclose a.epochs b.epochs = true then
    Except.ok { a with coeffs := Batch.addB a.coeffs b.coeffs }
  else if tailShape a.coeffs = tailShape b.coeffs then
    let r := matchLoop Grid.sub b.epochs b.coeffs a.epochs.enum a.coeffs 0
    if r.2 = a.epochs.length then Except.ok { a with coeffs := r.1 }
    else
      Except.error ("Invalid value of sub_counts <" ++ toString r.2 ++ ">, must be "
        ++ toString a.epochs.length ++ ".")
  else
    Except.error "UnboundLocalError: local variable referenced before assignment"

end SpharmCoeff

/-- Sort key of `np.sort`/`np.argsort` on floats: numbers in order, NaN last. -/
def RFloat.sortLE : RFloat → RFloat → Bool
  | RFloat.val a, RFloat.val b => decide (a ≤ b)
  | _, RFloat.nan => true
  | RFloat.nan, RFloat.val _ => false

/-- Stable insertion of index `i` after all indices with key not above `i`'s. -/
def insertIdxBy (key : Nat → RFloat) (i : Nat) : List Nat → List Nat
  | [] => [i]
  | j :: js => if RFloat.sortLE (key j) (key i) then j :: insertIdxBy key i js
               else i :: j :: js

/-- `np.argsort` on an epoch vector: a stable index permutation putting the
epochs in ascending order, NaN entries last. -/
def argsortList (es : List RFloat) : List Nat :=
  (List.range es.length).foldl
    (fun acc i => insertIdxBy (fun k => es.getD k RFloat.nan) i acc) []

/-- The NaN-or-value of a float for extraction into exact arithmetic. -/
def RFloat.toQ : RFloat → Option ℚ
  | RFloat.val q => some q
  | RFloat.nan => none

namespace SpharmCoeff

/-- `SpharmCoeff.sort`.  The source computes `errors_sorted` only in the
branch where `self.errors is not None`; in the other branch the name is never
bound (the `else` arm assigns `epochs_sorted = None` instead), so building the
result raises `NameError` for a series without errors. -/
def sort (s : SpharmCoeff) : Except String SpharmCoeff :=
  let p := argsortList s.epochs
  let coeffs_sorted := p.map (fun k => s.coeffs.getD k [])
  match s.errors with
  | some errs =>
      Except.ok { s with
        coeffs := coeffs_sorted
        errors := some (p.map (fun k => errs.getD k []))
        epochs := p.map (fun k => s.epochs.getD k RFloat.nan) }
  | none => Except.error "NameError: name errors_sorted is not defined"

/-- `SpharmCoeff.corr_gia`.  The GIA-model reader is an external collaborator;
its output `gia_trend` is a parameter.  NaN epochs lie outside the exact
fragment (numpy would propagate NaN into the coefficients); the claims
constrain epochs to be numeric, under which `filterMap RFloat.toQ` is exactly
the epoch list. -/
def corr_gia (s : SpharmCoeff) (gia_trend : Grid) (modelname mode : String) :
    Except String SpharmCoeff :=
  if mode ≠ "add" ∧ mode ≠ "subtract" then
    Except.error ("Invalid value of mode <" ++ mode ++ ">, must be subtract or add.")
  else
    let qs := s.epochs.filterMap RFloat.toQ
    let gia0 := qs.map (fun e => Grid.scale e gia_trend)
    let giaC := gia0.map (fun g => Grid.sub g (Batch.meanAxis0 gia0))
    if mode = "subtract" then
      Except.ok { s with
        coeffs := Batch.subB s.coeffs giaC
        name := s.name.map (fun n => n ++ "GIA: " ++ modelname ++ "\n") }
    else
      Except.ok { s with coeffs := Batch.addB s.coeffs giaC }

/-- `SpharmCoeff.smooth`.  The kernel collaborators `gauss_smooth`/`fan_smooth`
are external; their weight grids (for the given radius) are parameters, and
`coeffs * weight` is the elementwise product on every grid of the batch.
The source has no `else` arm: any other `kind` leaves `weight` unbound and
the multiplication raises `UnboundLocalError` (which does not mention `kind`). -/
def smooth (s : SpharmCoeff) (gaussWeight fanWeight : Grid) (kind : String) :
    Except String SpharmCoeff :=
  if kind = "gauss" then
    Except.ok { s with coeffs := s.coeffs.map (fun g => Grid.mul g gaussWeight) }
  else if kind = "fan" then
    Except.ok { s with coeffs := s.coeffs.map (fun g => Grid.mul g fanWeight) }
  else
    Except.error "UnboundLocalError: local variable referenced before assignment"

end SpharmCoeff

/-- The `coeffs`/`errors` argument of `SpharmCoeff.__init__`: a 3-D grid or a
4-D batch (any other rank is rejected by the constructor and is not
representable here). -/
inductive NdCoeffs where
  | dim3 (g : Grid)
  | dim4 (b : Batch)
deriving DecidableEq, Repr

/-- The `epochs` argument of `__init__`: an array or a bare float. -/
inductive EpochsArg where
  | arr (es : List RFloat)
  | scalar (e : RFloat)
deriving DecidableEq, Repr

/-- Same rank and same numpy shape. -/
def shapesAgree : NdCoeffs → NdCoeffs → Bool
  | NdCoeffs.dim3 g, NdCoeffs.dim3 h => Grid.shape g = Grid.shape h
  | NdCoeffs.dim4 b, NdCoeffs.dim4 c => Batch.shapeB b = Batch.shapeB c
  | _, _ => false

namespace SpharmCoeff

/-- `SpharmCoeff.__init__`: checks the coeffs/errors shape agreement, wraps a
3-D input into a batch of one (`[np.newaxis]`), wraps a scalar epoch into a
1-element array, and checks that the batch and epoch counts agree. -/
def construct (coeffs : NdCoeffs) (epochs : EpochsArg) (unit : String)
    (errors : Option NdCoeffs) (error_kind name : Option String) :
    Except String SpharmCoeff :=
  if errors.isSome && !shapesAgree coeffs (errors.getD coeffs) then
    Except.error "The shape of coeffs is unequal to that of errors"
  else
    let cb : Batch := match coeffs with
      | NdCoeffs.dim4 b => b
      | NdCoeffs.dim3 g => [g]
    let eb : Option Batch := errors.map (fun e => match e with
      | NdCoeffs.dim4 b => b
      | NdCoeffs.dim3 g => [g])
    let es : List RFloat := match epochs with
      | EpochsArg.arr l => l
      | EpochsArg.scalar e => [e]
    if cb.length ≠ es.length then
      Except.error ("The number of coeffs " ++ toString cb.length
        ++ " is unequal to that of epochs " ++ toString es.length)
    else
      Except.ok { coeffs := cb, epochs := es, unit := unit, errors := eb,
                  error_kind := error_kind, name := name }

/-- `SpharmCoeff.__getitem__` on an `int` index `i` (the claims restrict to
`0 <= i < len(S)`, where the numpy slices below are total): takes the `i`-th
3-D grid, the 1-element epoch array, the `i`-th error grid when present, and
rebuilds through `__init__`. -/
def getitemInt (s : SpharmCoeff) (i : Nat) : Except String SpharmCoeff :=
  construct (NdCoeffs.dim3 (s.coeffs.getD i []))
    (EpochsArg.arr [s.epochs.getD i RFloat.nan]) s.unit
    (s.errors.map (fun es => NdCoeffs.dim3 (es.getD i []))) s.error_kind s.name

end SpharmCoeff

/-- The `indice` attribute of a `ReplaceCoeff`: one `(type, degree, order)`
cell, or (for the degree-1 table) one list per axis as produced by
`tuple(zip((0,1,0), (0,1,1), (1,1,1)))` and consumed by numpy fancy indexing. -/
inductive Indice where
  | single (c l m : Nat)
  | multi (cs ls ms : List Nat)
deriving DecidableEq, Repr

/-- The Python test `self.indice == (0, 3, 0)` (the degree-3 zonal cell). -/
def Indice.isC30 : Indice → Bool
  | Indice.single 0 3 0 => true
  | _ => false

/-- The cells addressed by the index set (fancy indexing zips the axes). -/
def Indice.cells : Indice → List (Nat × Nat × Nat)
  | Indice.single c l m => [(c, l, m)]
  | Indice.multi cs ls ms => cs.zip (ls.zip ms)

/-- Overwrite the addressed cells of `g` with the matched replacement row
(`coeffs[ori_idx, *indice] = values`).  A 1-D replacement series is embedded
with singleton rows, so the single-cell write stores its scalar. -/
def writeCells (g : Grid) (idxs : List (Nat × Nat × Nat)) (vs : List ℚ) : Grid :=
  (idxs.zip vs).foldl (fun acc p => Grid.setCell acc p.1.1 p.1.2.1 p.1.2.2 p.2) g

/-- The `ReplaceCoeff` table.  `coeffs` holds one row of replacement values
per table epoch (a singleton row for a single-cell table). -/
structure ReplaceCoeff where
  indice : Indice
  coeffs : List (List ℚ)
  epochs : List RFloat
  unit : String
  errors : Option (List (List ℚ))
  name : Option (List String)
deriving DecidableEq, Repr

/-- The outcome of one iteration of the `apply_to` loop for one target epoch. -/
inductive MatchOut where
  | skip
  | fail (msg : String)
  | hit (rpIdx : Nat)
deriving DecidableEq, Repr

namespace ReplaceCoeff

/-- One target epoch of `ReplaceCoeff.apply_to`: skip a degree-3-zonal epoch
before 2018; otherwise match by `np.nanmin`/`np.nanargmin` under the `> 0.05`
rejection test (so a residual of exactly 0.05 is accepted, and NaN reference
entries are ignored). -/
def matchEpoch (rp : ReplaceCoeff) (t : RFloat) : MatchOut :=
  if rp.indice.isC30 && t.flt (RFloat.val 2018) then
    MatchOut.skip
  else
    let residual := residualOf rp.epochs t
    if (nanminList residual).fgt (RFloat.val (1/20)) then
      MatchOut.fail ("Invalid value of epoch " ++ t.fmt
        ++ ", which cannot be found in the replacement epochs.")
    else
      match nanargminList residual with
      | Except.error e => MatchOut.fail e
      | Except.ok rpIdx => MatchOut.hit rpIdx

/-- The per-epoch loop of `ReplaceCoeff.apply_to`, overwriting the addressed
cells (and error cells when both sides carry errors) at each matched epoch. -/
def applyLoop (rp : ReplaceCoeff) :
    List (Nat × RFloat) → Batch → Option Batch → Except String (Batch × Option Batch)
  | [], cs, es => Except.ok (cs, es)
  | (i, t) :: rest, cs, es =>
    match rp.matchEpoch t with
    | MatchOut.skip => applyLoop rp rest cs es
    | MatchOut.fail e => Except.error e
    | MatchOut.hit rpIdx =>
      let cs2 := cs.set i (writeCells (cs.getD i []) rp.indice.cells (rp.coeffs.getD rpIdx []))
      let es2 := match rp.errors, es with
        | some rerrs, some errs =>
            some (errs.set i
              (writeCells (errs.getD i []) rp.indice.cells (rerrs.getD rpIdx [])))
        | _, _ => es
      applyLoop rp rest cs2 es2

/-- `ReplaceCoeff.apply_to`: run the loop on defensive copies, then handle the
provenance label (a 2-element label appends to the provenance string, `None`
is silent, anything else raises `AttributeError`) and rebuild the series. -/
def apply_to (rp : ReplaceCoeff) (s : SpharmCoeff) : Except String SpharmCoeff :=
  match applyLoop rp s.epochs.enum s.coeffs s.errors with
  | Except.error e => Except.error e
  | Except.ok (cs, es) =>
    match rp.name with
    | some l =>
      if l.length = 2 then
        Except.ok { s with
          coeffs := cs
          errors := es
          name := s.name.map (fun n => n ++ l.getD 0 "" ++ ": " ++ l.getD 1 "" ++ "\n") }
      else Except.error "Invalid attribute of name."
    | none => Except.ok { s with coeffs := cs, errors := es }

end ReplaceCoeff

/-!
Mutation-tracking model for the frame-effect claim: numpy arrays live in an
explicit store, a series holds references into it, `np.copy`/`copy.deepcopy`
allocate fresh references, and in-place writes (`coeffs[i] = ...`) update the
store at a reference.  A transformation leaves its inputs untouched exactly
when the final store agrees with the initial one on every pre-existing
reference.
-/

/-- A store of numpy arrays; references are indices. -/
structure Heap where
  arrays : List Batch
deriving DecidableEq, Repr

namespace Heap

/-- Dereference (a dangling reference reads as an empty array). -/
def get (h : Heap) (r : Nat) : Batch := h.arrays.getD r []

/-- Allocate a fresh array (models `np.copy` / `copy.deepcopy` / array
construction), returning the new store and the new reference. -/
def alloc (h : Heap) (b : Batch) : Heap × Nat :=
  (⟨h.arrays ++ [b]⟩, h.arrays.length)

/-- In-place overwrite of the array behind a reference. -/
def put (h : Heap) (r : Nat) (b : Batch) : Heap := ⟨h.arrays.set r b⟩

/-- The two stores agree on every reference below `n`. -/
def AgreesBelow (h h0 : Heap) (n : Nat) : Prop :=
  ∀ r < n, h.get r = h0.get r

end Heap

/-- A `SpharmCoeff` whose arrays live in the store. -/
structure SphRef where
  coeffsRef : Nat
  errorsRef : Option Nat
  epochs : List RFloat
  unit : String
  error_kind : Option String
  name : Option String
deriving DecidableEq, Repr

namespace ReplaceCoeff

/-- The `apply_to` loop over the store: each matched epoch writes, in place,
one row of the array behind `csR` (the copy of the target's coefficients) and,
when both sides carry errors, one row behind `esR` (the copy of its errors). -/
def applyLoopH (rp : ReplaceCoeff) (csR : Nat) (esR : Option Nat) :
    List (Nat × RFloat) → Heap → Heap × Except String Unit
  | [], h => (h, Except.ok ())
  | (i, t) :: rest, h =>
    match rp.matchEpoch t with
    | MatchOut.skip => applyLoopH rp csR esR rest h
    | MatchOut.fail e => (h, Except.error e)
    | MatchOut.hit rpIdx =>
      let cs := h.get csR
      let h2 := h.put csR
        (cs.set i (writeCells (cs.getD i []) rp.indice.cells (rp.coeffs.getD rpIdx [])))
      let h3 := match rp.errors, esR with
        | some rerrs, some er =>
            let es := h2.get er
            h2.put er
              (es.set i (writeCells (es.getD i []) rp.indice.cells (rerrs.getD rpIdx [])))
        | _, _ => h2
      applyLoopH rp csR esR rest h3

/-- `ReplaceCoeff.apply_to` over the store: copy the target's coefficient and
error arrays (`np.copy`, `copy.deepcopy`), run the loop on the copies, then
rebuild through the constructor (which copies once more).  The incoming
series is only ever read. -/
def applyToH (rp : ReplaceCoeff) (s : SphRef) (h : Heap) :
    Heap × Except String SphRef :=
  let a1 := h.alloc (h.get s.coeffsRef)
  let h1 := a1.1
  let csR := a1.2
  let p2 : Heap × Option Nat := match s.errorsRef with
    | some r => let a2 := h1.alloc (h1.get r); (a2.1, some a2.2)
    | none => (h1, none)
  let h2 := p2.1
  let esR := p2.2
  match applyLoopH rp csR esR s.epochs.enum h2 with
  | (h3, Except.error e) => (h3, Except.error e)
  | (h3, Except.ok _) =>
    match rp.name with
    | some l =>
      if l.length = 2 then
        let a4 := h3.alloc (h3.get csR)
        let p5 : Heap × Option Nat := match esR with
          | some r => let a5 := a4.1.alloc (a4.1.get r); (a5.1, some a5.2)
          | none => (a4.1, none)
        (p5.1, Except.ok
          { coeffsRef := a4.2, errorsRef := p5.2, epochs := s.epochs, unit := s.unit
            error_kind := s.error_kind
            name := s.name.map (fun n => n ++ l.getD 0 "" ++ ": " ++ l.getD 1 "" ++ "\n") })
      else (h3, Except.error "Invalid attribute of name.")
    | none =>
      let a4 := h3.alloc (h3.get csR)
      let p5 : Heap × Option Nat := match esR with
        | some r => let a5 := a4.1.alloc (a4.1.get r); (a5.1, some a5.2)
        | none => (a4.1, none)
      (p5.1, Except.ok
        { coeffsRef := a4.2, errorsRef := p5.2, epochs := s.epochs, unit := s.unit
          error_kind := s.error_kind, name := s.name })

end ReplaceCoeff

namespace SpharmCoeff

/-- `SpharmCoeff.sort` over the store: fancy indexing builds fresh arrays
(allocations), the input arrays are only read; a series without errors fails
(`errors_sorted` is unbound) before anything is built. -/
def sortH (s : SphRef) (h : Heap) : Heap × Except String SphRef :=
  let p := argsortList s.epochs
  match s.errorsRef with
  | some r =>
    let a1 := h.alloc (p.map (fun k => (h.get s.coeffsRef).getD k []))
    let a2 := a1.1.alloc (p.map (fun k => (h.get r).getD k []))
    (a2.1, Except.ok
      { coeffsRef := a1.2, errorsRef := some a2.2
        epochs := p.map (fun k => s.epochs.getD k RFloat.nan)
        unit := s.unit, error_kind := s.error_kind, name := s.name })
  | none => (h, Except.error "NameError: name errors_sorted is not defined")

end SpharmCoeff

/-!  Theorems for the claims.  -/

deriving instance DecidableEq for Except

set_option maxRecDepth 20000 in
/-- C1: the claim "subtraction subtracts on every alignment path" fails on the
code.  Two one-epoch series with equal shapes and equal epochs take the exact
path of `__sub__`, which computes `self.coeffs + other.coeffs`: 1 minus 2
yields 3, while the elementwise difference of the batches is -1. -/
theorem C1_sub_exact_path_adds :
    SpharmCoeff.subS
        { coeffs := [[[[1]]]], epochs := [RFloat.val 2000], unit := "stokes",
          errors := none, error_kind := none, name := none }
        { coeffs := [[[[2]]]], epochs := [RFloat.val 2000], unit := "stokes",
          errors := none, error_kind := none, name := none }
      = Except.ok
        { coeffs := [[[[3]]]], epochs := [RFloat.val 2000], unit := "stokes",
          errors := none, error_kind := none, name := none }
    ∧ Batch.subB [[[[1]]]] [[[[2]]]] = [[[[-1]]]] := by
  constructor
  · with_unfolding_all decide
  · with_unfolding_all decide

set_option maxRecDepth 20000 in
/-- C2: the claim "sort succeeds for every valid series, with or without
error grids" fails on the code.  For a series without errors the branch that
should bind `errors_sorted` assigns `epochs_sorted = None` instead, so
rebuilding the series raises `NameError`; the same series with an error batch
sorts fine. -/
theorem C2_sort_unbound_errors_sorted :
    SpharmCoeff.sort
        { coeffs := [[[[1]]]], epochs := [RFloat.val 2000], unit := "stokes",
          errors := none, error_kind := none, name := none }
      = Except.error "NameError: name errors_sorted is not defined"
    ∧ SpharmCoeff.sort
        { coeffs := [[[[1]]], [[[2]]]],
          epochs := [RFloat.val 2001, RFloat.val 2000], unit := "stokes",
          errors := some [[[[3]]], [[[4]]]], error_kind := none, name := none }
      = Except.ok
        { coeffs := [[[[2]]], [[[1]]]],
          epochs := [RFloat.val 2000, RFloat.val 2001], unit := "stokes",
          errors := some [[[[4]]], [[[3]]]], error_kind := none, name := none } := by
  constructor
  · with_unfolding_all decide
  · with_unfolding_all decide

/-- C8: calling `smooth` with a kind other than "gauss" or "fan" falls through
both branches, leaving `weight` unbound; the failure is the same
`UnboundLocalError` for every invalid kind, so it does not name the invalid
value (the claim says the error names it). -/
theorem C8_smooth_unbound_weight (s : SpharmCoeff) (gw fw : Grid) (kind : String)
    (h1 : kind ≠ "gauss") (h2 : kind ≠ "fan") :
    SpharmCoeff.smooth s gw fw kind
      = Except.error "UnboundLocalError: local variable referenced before assignment" := by
  unfold SpharmCoeff.smooth
  simp [h1, h2]

theorem C8_smooth_unbound_weight_witness :
    ("foo" ≠ "gauss") ∧ ("foo" ≠ "fan") ∧
    SpharmCoeff.smooth
        { coeffs := [[[[1]]]], epochs := [RFloat.val 2000], unit := "stokes",
          errors := none, error_kind := none, name := none }
        [[[2]]] [[[3]]] "foo"
      = Except.error "UnboundLocalError: local variable referenced before assignment" :=
  ⟨by decide, by decide,
    C8_smooth_unbound_weight _ _ _ _ (by decide) (by decide)⟩

/-- C10: indexing a valid series at `0 <= i < len(S)` yields a length-1 series
holding the `i`-th grid, the `i`-th epoch, the same unit, error kind and name,
and the `i`-th error grid exactly when the series has errors. -/
theorem C10_getitem_singleton (s : SpharmCoeff) (i : Nat)
    (herr : ∀ es, s.errors = some es → Batch.shapeB es = Batch.shapeB s.coeffs)
    (hi : i < s.length) :
    ∃ out, SpharmCoeff.getitemInt s i = Except.ok out
      ∧ out.length = 1
      ∧ out.coeffs = [s.coeffs.getD i []]
      ∧ out.epochs = [s.epochs.getD i RFloat.nan]
      ∧ out.unit = s.unit ∧ out.error_kind = s.error_kind ∧ out.name = s.name
      ∧ out.errors = s.errors.map (fun es => [es.getD i []]) := by
  cases herrs : s.errors with
  | none =>
      refine ⟨{ coeffs := [s.coeffs.getD i []], epochs := [s.epochs.getD i RFloat.nan],
                unit := s.unit, errors := none, error_kind := s.error_kind, name := s.name },
              ?_, rfl, rfl, rfl, rfl, rfl, rfl, by simp⟩
      simp [SpharmCoeff.getitemInt, SpharmCoeff.construct, herrs]
  | some es =>
      have hb : Batch.shapeB es = Batch.shapeB s.coeffs := herr es herrs
      have key : Grid.shape (es.getD i []) = Grid.shape (s.coeffs.getD i []) := by
        have h3 := List.getD_map (l := es) (d := ([] : Grid)) (n := i) Grid.shape
        have h4 := List.getD_map (l := s.coeffs) (d := ([] : Grid)) (n := i) Grid.shape
        have h2 : (es.map Grid.shape).getD i (Grid.shape []) =
            (s.coeffs.map Grid.shape).getD i (Grid.shape []) := by
          have : es.map Grid.shape = s.coeffs.map Grid.shape := hb
          rw [this]
        rw [h3, h4] at h2
        exact h2
      refine ⟨{ coeffs := [s.coeffs.getD i []], epochs := [s.epochs.getD i RFloat.nan],
                unit := s.unit, errors := some [es.getD i []],
                error_kind := s.error_kind, name := s.name },
              ?_, rfl, rfl, rfl, rfl, rfl, rfl, by simp⟩
      have key2 : Grid.shape (s.coeffs[i]?.getD []) = Grid.shape (es[i]?.getD []) := by
        simpa [List.getD_eq_getElem?_getD] using key.symm
      simp [SpharmCoeff.getitemInt, SpharmCoeff.construct, herrs, shapesAgree, key2]

theorem C10_getitem_singleton_witness :
    ∃ out,
      SpharmCoeff.getitemInt
          { coeffs := [[[[1]]], [[[2]]]], epochs := [RFloat.val 2000, RFloat.val 2001],
            unit := "stokes", errors := some [[[[3]]], [[[4]]]],
            error_kind := some "formal", name := some "GSM" } 1
        = Except.ok out
      ∧ out.length = 1
      ∧ out.coeffs = [(([[[[1]]], [[[2]]]] : Batch).getD 1 [])]
      ∧ out.epochs = [([RFloat.val 2000, RFloat.val 2001].getD 1 RFloat.nan)]
      ∧ out.unit = "stokes" ∧ out.error_kind = some "formal" ∧ out.name = some "GSM"
      ∧ out.errors = (some [[[[3]]], [[[4]]]] : Option Batch).map (fun es => [es.getD 1 []]) :=
  C10_getitem_singleton
    { coeffs := [[[[1]]], [[[2]]]], epochs := [RFloat.val 2000, RFloat.val 2001],
      unit := "stokes", errors := some [[[[3]]], [[[4]]]],
      error_kind := some "formal", name := some "GSM" } 1
    (by intro es h; injection h with h2; rw [← h2]; rfl)
    (by decide)

/-!  Algebra of scaled grids, for the GIA mean-centering claim.  -/

lemma zipWith_map_same {α β : Type} (f : β → β → β) (g h : α → β) (l : List α) :
    List.zipWith f (l.map g) (l.map h) = l.map (fun a => f (g a) (h a)) := by
  rw [List.zipWith_map, List.zipWith_same]

lemma row_scale_op (f : ℚ → ℚ → ℚ) (a b k : ℚ) (hk : ∀ x : ℚ, f (a * x) (b * x) = k * x)
    (r : List ℚ) :
    List.zipWith f (r.map (fun x => a * x)) (r.map (fun x => b * x)) =
      r.map (fun x => k * x) := by
  rw [zipWith_map_same]; simp only [hk]

lemma plane_scale_op (f : ℚ → ℚ → ℚ) (a b k : ℚ) (hk : ∀ x : ℚ, f (a * x) (b * x) = k * x)
    (p : List (List ℚ)) :
    List.zipWith (List.zipWith f) (p.map (List.map (fun x => a * x)))
        (p.map (List.map (fun x => b * x))) =
      p.map (List.map (fun x => k * x)) := by
  rw [zipWith_map_same]
  exact List.map_congr_left (fun r _ => row_scale_op f a b k hk r)

lemma grid_scale_op (f : ℚ → ℚ → ℚ) (a b k : ℚ) (hk : ∀ x : ℚ, f (a * x) (b * x) = k * x)
    (T : Grid) :
    List.zipWith (List.zipWith (List.zipWith f)) (Grid.scale a T) (Grid.scale b T) =
      Grid.scale k T := by
  unfold Grid.scale
  rw [zipWith_map_same]
  exact List.map_congr_left (fun p _ => plane_scale_op f a b k hk p)

lemma add_scale_scale (a b : ℚ) (T : Grid) :
    Grid.add (Grid.scale a T) (Grid.scale b T) = Grid.scale (a + b) T :=
  grid_scale_op _ a b (a + b) (fun x => (add_mul a b x).symm) T

lemma sub_scale_scale (a b : ℚ) (T : Grid) :
    Grid.sub (Grid.scale a T) (Grid.scale b T) = Grid.scale (a - b) T :=
  grid_scale_op _ a b (a - b) (fun x => (sub_mul a b x).symm) T

lemma scale_scale (a b : ℚ) (T : Grid) :
    Grid.scale a (Grid.scale b T) = Grid.scale (a * b) T := by
  simp [Grid.scale, List.map_map, Function.comp_def, mul_assoc]

lemma scale_zero (T : Grid) : Grid.scale 0 T = Grid.zeroLike T := by
  simp [Grid.scale, Grid.zeroLike]

lemma fold_add_scale (T : Grid) (q0 : ℚ) (qs : List ℚ) :
    List.foldl Grid.add (Grid.scale q0 T) (qs.map (fun e => Grid.scale e T)) =
      Grid.scale (q0 + qs.sum) T := by
  induction qs generalizing q0 with
  | nil => simp
  | cons e es ih =>
      simp only [List.map_cons, List.foldl_cons, add_scale_scale, ih, List.sum_cons]
      ring_nf

lemma meanAxis0_scaled (T : Grid) (q : ℚ) (qs : List ℚ) :
    Batch.meanAxis0 ((q :: qs).map (fun e => Grid.scale e T)) =
      Grid.scale ((q + qs.sum) / (qs.length + 1)) T := by
  simp only [List.map_cons, Batch.meanAxis0, List.length_map, fold_add_scale, scale_scale]
  congr 1
  field_simp

lemma sum_map_sub_const (l : List ℚ) (c : ℚ) :
    (l.map (fun x => x - c)).sum = l.sum - l.length * c := by
  induction l with
  | nil => simp
  | cons x xs ih => simp [ih]; ring

/-- The mean-centered projection of a GIA trend grid onto a sequence of
(numeric) epochs, as `corr_gia` computes it: `epoch * trend` per epoch, minus
the elementwise temporal mean of that projected series. -/
def giaCentered (qs : List ℚ) (trend : Grid) : Batch :=
  let gia0 := qs.map (fun e => Grid.scale e trend)
  gia0.map (fun g => Grid.sub g (Batch.meanAxis0 gia0))

lemma giaCentered_eq (q : ℚ) (qs : List ℚ) (T : Grid) :
    giaCentered (q :: qs) T =
      ((q :: qs).map (fun e => e - (q + qs.sum) / (qs.length + 1))).map
        (fun e => Grid.scale e T) := by
  unfold giaCentered
  simp only [meanAxis0_scaled, List.map_map]
  refine List.map_congr_left (fun e _ => ?_)
  simp [Function.comp_def, sub_scale_scale]

lemma meanAxis0_giaCentered (q : ℚ) (qs : List ℚ) (T : Grid) :
    Batch.meanAxis0 (giaCentered (q :: qs) T) = Grid.zeroLike T := by
  rw [giaCentered_eq]
  set c : ℚ := (q + qs.sum) / (qs.length + 1) with hc
  have hlist : (q :: qs).map (fun e => e - c) = (q - c) :: qs.map (fun e => e - c) := by
    simp
  rw [hlist, meanAxis0_scaled, ← scale_zero]
  congr 1
  have hsum : (qs.map (fun e => e - c)).sum = qs.sum - qs.length * c :=
    sum_map_sub_const qs c
  have hlen : ((qs.map (fun e => e - c)).length : ℚ) = (qs.length : ℚ) := by simp
  rw [hsum, hlen]
  have hn : ((qs.length : ℚ) + 1) ≠ 0 := by positivity
  field_simp [hc]
  ring

/-- C6: for a series with numeric epochs, `corr_gia` in subtract mode returns
the input batch minus the mean-centered projected trend, add mode returns the
input plus the same mean-centered projection, any other mode fails with an
error naming the invalid value, and the mean of the applied correction over
the epochs is the zero grid (no level offset). -/
theorem C6_corr_gia_centered (s : SpharmCoeff) (T : Grid) (mn : String) (qs : List ℚ)
    (hq : s.epochs = qs.map RFloat.val) (hne : qs ≠ []) :
    SpharmCoeff.corr_gia s T mn "subtract" = Except.ok
      { s with coeffs := Batch.subB s.coeffs (giaCentered qs T),
               name := s.name.map (fun n => n ++ "GIA: " ++ mn ++ "\n") }
    ∧ SpharmCoeff.corr_gia s T mn "add" = Except.ok
      { s with coeffs := Batch.addB s.coeffs (giaCentered qs T) }
    ∧ (∀ mode, mode ≠ "add" → mode ≠ "subtract" →
        SpharmCoeff.corr_gia s T mn mode =
          Except.error ("Invalid value of mode <" ++ mode ++ ">, must be subtract or add."))
    ∧ Batch.meanAxis0 (giaCentered qs T) = Grid.zeroLike T := by
  have hfm : s.epochs.filterMap RFloat.toQ = qs := by
    rw [hq, List.filterMap_map]
    have : (RFloat.toQ ∘ RFloat.val) = some := rfl
    rw [this, List.filterMap_some]
  refine ⟨?_, ?_, ?_, ?_⟩
  · simp [SpharmCoeff.corr_gia, hfm, giaCentered]
  · simp [SpharmCoeff.corr_gia, hfm, giaCentered]
  · intro mode h1 h2
    simp [SpharmCoeff.corr_gia, h1, h2]
  · obtain ⟨q, qs', rfl⟩ := List.exists_cons_of_ne_nil hne
    exact meanAxis0_giaCentered q qs' T

theorem C6_corr_gia_centered_witness :
    SpharmCoeff.corr_gia
        { coeffs := [[[[10]]], [[[20]]]], epochs := [RFloat.val 1, RFloat.val 3],
          unit := "stokes", errors := none, error_kind := none, name := none }
        [[[2]]] "ICE6G-D" "subtract"
      = Except.ok
        { coeffs := Batch.subB [[[[10]]], [[[20]]]] (giaCentered [1, 3] [[[2]]]),
          epochs := [RFloat.val 1, RFloat.val 3], unit := "stokes", errors := none,
          error_kind := none,
          name := (none : Option String).map (fun n => n ++ "GIA: " ++ "ICE6G-D" ++ "\n") }
    ∧ SpharmCoeff.corr_gia
        { coeffs := [[[[10]]], [[[20]]]], epochs := [RFloat.val 1, RFloat.val 3],
          unit := "stokes", errors := none, error_kind := none, name := none }
        [[[2]]] "ICE6G-D" "add"
      = Except.ok
        { coeffs := Batch.addB [[[[10]]], [[[20]]]] (giaCentered [1, 3] [[[2]]]),
          epochs := [RFloat.val 1, RFloat.val 3], unit := "stokes", errors := none,
          error_kind := none, name := none }
    ∧ (∀ mode, mode ≠ "add" → mode ≠ "subtract" →
        SpharmCoeff.corr_gia
            { coeffs := [[[[10]]], [[[20]]]], epochs := [RFloat.val 1, RFloat.val 3],
              unit := "stokes", errors := none, error_kind := none, name := none }
            [[[2]]] "ICE6G-D" mode =
          Except.error ("Invalid value of mode <" ++ mode ++ ">, must be subtract or add."))
    ∧ Batch.meanAxis0 (giaCentered [1, 3] [[[2]]]) = Grid.zeroLike [[[2]]] :=
  C6_corr_gia_centered
    { coeffs := [[[[10]]], [[[20]]]], epochs := [RFloat.val 1, RFloat.val 3],
      unit := "stokes", errors := none, error_kind := none, name := none }
    [[[2]]] "ICE6G-D" [1, 3] rfl (by simp)

/-!  Store lemmas for the frame-effect claim.  -/

lemma Heap.get_alloc_lt (h : Heap) (b : Batch) (r : Nat) (hr : r < h.arrays.length) :
    (h.alloc b).1.get r = h.get r := by
  simp [Heap.alloc, Heap.get, List.getD_eq_getElem?_getD, List.getElem?_append_left hr]

lemma Heap.get_put_ne (h : Heap) (rr r : Nat) (b : Batch) (hne : r ≠ rr) :
    (h.put rr b).get r = h.get r := by
  simp [Heap.put, Heap.get, List.getD_eq_getElem?_getD, List.getElem?_set_ne (Ne.symm hne)]

lemma Heap.length_put (h : Heap) (r : Nat) (b : Batch) :
    (h.put r b).arrays.length = h.arrays.length := by
  simp [Heap.put]

lemma Heap.length_alloc (h : Heap) (b : Batch) :
    (h.alloc b).1.arrays.length = h.arrays.length + 1 := by
  simp [Heap.alloc]

lemma applyLoopH_frame (rp : ReplaceCoeff) (csR : Nat) (esR : Option Nat) (N : Nat)
    (hcs : N ≤ csR) (hes : ∀ e, esR = some e → N ≤ e) (r : Nat) (hr : r < N) :
    ∀ (pairs : List (Nat × RFloat)) (h : Heap),
      (ReplaceCoeff.applyLoopH rp csR esR pairs h).1.get r = h.get r := by
  intro pairs
  induction pairs with
  | nil => intro h; rfl
  | cons p rest ih =>
    intro h
    obtain ⟨i, t⟩ := p
    have hrcs : r ≠ csR := by omega
    simp only [ReplaceCoeff.applyLoopH]
    cases hm : rp.matchEpoch t with
    | skip => exact ih h
    | fail e => rfl
    | hit k =>
      cases he : rp.errors with
      | none =>
        simp only []
        rw [ih, Heap.get_put_ne _ _ _ _ hrcs]
      | some rerrs =>
        cases hesr : esR with
        | none =>
          subst hesr
          rw [ih, Heap.get_put_ne _ _ _ _ hrcs]
        | some er =>
          have hrer : r ≠ er := by have := hes er hesr; omega
          subst hesr
          rw [ih, Heap.get_put_ne _ _ _ _ hrer, Heap.get_put_ne _ _ _ _ hrcs]

lemma applyLoopH_length (rp : ReplaceCoeff) (csR : Nat) (esR : Option Nat) :
    ∀ (pairs : List (Nat × RFloat)) (h : Heap),
      (ReplaceCoeff.applyLoopH rp csR esR pairs h).1.arrays.length = h.arrays.length := by
  intro pairs
  induction pairs with
  | nil => intro h; rfl
  | cons p rest ih =>
    intro h
    obtain ⟨i, t⟩ := p
    simp only [ReplaceCoeff.applyLoopH]
    cases hm : rp.matchEpoch t with
    | skip => exact ih h
    | fail e => rfl
    | hit k =>
      cases he : rp.errors with
      | none => rw [ih, Heap.length_put]
      | some rerrs =>
        cases hesr : esR with
        | none => subst hesr; rw [ih, Heap.length_put]
        | some er => subst hesr; rw [ih, Heap.length_put, Heap.length_put]

lemma Heap.get_snoc (A : List Batch) (b : Batch) (r : Nat) (hr : r < A.length) :
    Heap.get ⟨A ++ [b]⟩ r = Heap.get ⟨A⟩ r := by
  simp [Heap.get, List.getD_eq_getElem?_getD, List.getElem?_append_left hr]

lemma applyToH_frame (rp : ReplaceCoeff) (s : SphRef) (h : Heap) (r : Nat)
    (hr : r < h.arrays.length) : (rp.applyToH s h).1.get r = h.get r := by
  simp only [ReplaceCoeff.applyToH, Heap.alloc]
  cases hse : s.errorsRef with
  | none =>
    rcases hL : ReplaceCoeff.applyLoopH rp h.arrays.length none s.epochs.enum
        ⟨h.arrays ++ [h.get s.coeffsRef]⟩ with ⟨h3, res⟩
    have hbase : Heap.get ⟨h.arrays ++ [h.get s.coeffsRef]⟩ r = h.get r :=
      Heap.get_snoc _ _ _ hr
    have hagree : h3.get r = h.get r := by
      have hfr := applyLoopH_frame rp h.arrays.length none h.arrays.length le_rfl
        (fun e he => by cases he) r hr s.epochs.enum ⟨h.arrays ++ [h.get s.coeffsRef]⟩
      rw [hL] at hfr
      exact hfr.trans hbase
    have hlen3 : h3.arrays.length = h.arrays.length + 1 := by
      have hlen := applyLoopH_length rp h.arrays.length none s.epochs.enum
        ⟨h.arrays ++ [h.get s.coeffsRef]⟩
      rw [hL] at hlen
      simpa using hlen
    cases res with
    | error e => simpa using hagree
    | ok u =>
      cases rp.name with
      | none =>
        show Heap.get ⟨h3.arrays ++ [h3.get h.arrays.length]⟩ r = h.get r
        rw [Heap.get_snoc _ _ _ (by omega)]
        exact hagree
      | some l =>
        by_cases hl : l.length = 2
        · simp only [hl, if_true]
          show Heap.get ⟨h3.arrays ++ [h3.get h.arrays.length]⟩ r = h.get r
          rw [Heap.get_snoc _ _ _ (by omega)]
          exact hagree
        · simp only [hl, if_false]
          exact hagree
  | some er =>
    rcases hL : ReplaceCoeff.applyLoopH rp h.arrays.length
        (some (h.arrays ++ [h.get s.coeffsRef]).length) s.epochs.enum
        ⟨h.arrays ++ [h.get s.coeffsRef] ++ [Heap.get ⟨h.arrays ++ [h.get s.coeffsRef]⟩ er]⟩
        with ⟨h3, res⟩
    have hbase : Heap.get
        ⟨h.arrays ++ [h.get s.coeffsRef] ++ [Heap.get ⟨h.arrays ++ [h.get s.coeffsRef]⟩ er]⟩ r
        = h.get r := by
      rw [Heap.get_snoc _ _ _ (by simp; omega), Heap.get_snoc _ _ _ hr]
    have hagree : h3.get r = h.get r := by
      have hfr := applyLoopH_frame rp h.arrays.length
        (some (h.arrays ++ [h.get s.coeffsRef]).length) h.arrays.length le_rfl
        (fun e he => by injection he with h2; simp [← h2]) r hr s.epochs.enum
        ⟨h.arrays ++ [h.get s.coeffsRef] ++ [Heap.get ⟨h.arrays ++ [h.get s.coeffsRef]⟩ er]⟩
      rw [hL] at hfr
      exact hfr.trans hbase
    have hlen3 : h3.arrays.length = h.arrays.length + 2 := by
      have hlen := applyLoopH_length rp h.arrays.length
        (some (h.arrays ++ [h.get s.coeffsRef]).length) s.epochs.enum
        ⟨h.arrays ++ [h.get s.coeffsRef] ++ [Heap.get ⟨h.arrays ++ [h.get s.coeffsRef]⟩ er]⟩
      rw [hL] at hlen
      simpa using hlen
    cases res with
    | error e => simpa using hagree
    | ok u =>
      cases rp.name with
      | none =>
        show Heap.get ⟨h3.arrays ++ [h3.get h.arrays.length]
            ++ [Heap.get ⟨h3.arrays ++ [h3.get h.arrays.length]⟩
                  (h.arrays ++ [h.get s.coeffsRef]).length]⟩ r = h.get r
        rw [Heap.get_snoc _ _ _ (by simp; omega), Heap.get_snoc _ _ _ (by omega)]
        exact hagree
      | some l =>
        by_cases hl : l.length = 2
        · simp only [hl, if_true]
          show Heap.get ⟨h3.arrays ++ [h3.get h.arrays.length]
              ++ [Heap.get ⟨h3.arrays ++ [h3.get h.arrays.length]⟩
                    (h.arrays ++ [h.get s.coeffsRef]).length]⟩ r = h.get r
          rw [Heap.get_snoc _ _ _ (by simp; omega), Heap.get_snoc _ _ _ (by omega)]
          exact hagree
        · simp only [hl, if_false]
          exact hagree

lemma sortH_frame (s : SphRef) (h : Heap) (r : Nat)
    (hr : r < h.arrays.length) : (SpharmCoeff.sortH s h).1.get r = h.get r := by
  simp only [SpharmCoeff.sortH, Heap.alloc]
  cases s.errorsRef with
  | none => rfl
  | some er =>
    show Heap.get ⟨h.arrays ++ [_] ++ [_]⟩ r = h.get r
    rw [Heap.get_snoc _ _ _ (by simp; omega), Heap.get_snoc _ _ _ hr]

lemma applyToH_fresh (rp : ReplaceCoeff) (s : SphRef) (h : Heap) :
    ∀ out, (rp.applyToH s h).2 = Except.ok out → h.arrays.length ≤ out.coeffsRef := by
  intro out hout
  simp only [ReplaceCoeff.applyToH, Heap.alloc] at hout
  revert hout
  cases hse : s.errorsRef with
  | none =>
    rcases hL : ReplaceCoeff.applyLoopH rp h.arrays.length none s.epochs.enum
        ⟨h.arrays ++ [h.get s.coeffsRef]⟩ with ⟨h3, res⟩
    have hlen3 : h3.arrays.length = h.arrays.length + 1 := by
      have hlen := applyLoopH_length rp h.arrays.length none s.epochs.enum
        ⟨h.arrays ++ [h.get s.coeffsRef]⟩
      rw [hL] at hlen
      simpa using hlen
    cases res with
    | error e => intro hout; cases hout
    | ok u =>
      cases rp.name with
      | none =>
        intro hout
        injection hout with h2
        rw [← h2]
        show h.arrays.length ≤ h3.arrays.length
        omega
      | some l =>
        by_cases hl : l.length = 2
        · simp only [hl, if_true]
          intro hout
          injection hout with h2
          rw [← h2]
          show h.arrays.length ≤ h3.arrays.length
          omega
        · simp only [hl, if_false]
          intro hout
          cases hout
  | some er =>
    rcases hL : ReplaceCoeff.applyLoopH rp h.arrays.length
        (some (h.arrays ++ [h.get s.coeffsRef]).length) s.epochs.enum
        ⟨h.arrays ++ [h.get s.coeffsRef] ++ [Heap.get ⟨h.arrays ++ [h.get s.coeffsRef]⟩ er]⟩
        with ⟨h3, res⟩
    have hlen3 : h3.arrays.length = h.arrays.length + 2 := by
      have hlen := applyLoopH_length rp h.arrays.length
        (some (h.arrays ++ [h.get s.coeffsRef]).length) s.epochs.enum
        ⟨h.arrays ++ [h.get s.coeffsRef] ++ [Heap.get ⟨h.arrays ++ [h.get s.coeffsRef]⟩ er]⟩
      rw [hL] at hlen
      simpa using hlen
    cases res with
    | error e => intro hout; cases hout
    | ok u =>
      cases rp.name with
      | none =>
        intro hout
        injection hout with h2
        rw [← h2]
        show h.arrays.length ≤ h3.arrays.length
        omega
      | some l =>
        by_cases hl : l.length = 2
        · simp only [hl, if_true]
          intro hout
          injection hout with h2
          rw [← h2]
          show h.arrays.length ≤ h3.arrays.length
          omega
        · simp only [hl, if_false]
          intro hout
          cases hout

/-- C9: in the mutation-tracking model, `ReplaceCoeff.apply_to` and
`SpharmCoeff.sort` leave every pre-existing array of the store unchanged
(in particular the input series' coefficient and error arrays and anything
the replacement table points to), and on success `apply_to` returns a series
whose coefficient array is a freshly allocated one. -/
theorem C9_no_mutation (h : Heap) (rp : ReplaceCoeff) (s : SphRef) (r : Nat)
    (hr : r < h.arrays.length) :
    (rp.applyToH s h).1.get r = h.get r
    ∧ (SpharmCoeff.sortH s h).1.get r = h.get r
    ∧ (∀ out, (rp.applyToH s h).2 = Except.ok out → h.arrays.length ≤ out.coeffsRef) :=
  ⟨applyToH_frame rp s h r hr, sortH_frame s h r hr, applyToH_fresh rp s h⟩

theorem C9_no_mutation_witness :
    (ReplaceCoeff.applyToH
        { indice := Indice.single 0 2 0, coeffs := [[7]], epochs := [RFloat.val 2000],
          unit := "stokes", errors := none, name := none }
        { coeffsRef := 0, errorsRef := none, epochs := [RFloat.val 2000],
          unit := "stokes", error_kind := none, name := none }
        ⟨[[[[[1], [2], [3]], [[0], [0], [0]]]]]⟩).1.get 0
      = Heap.get ⟨[[[[[1], [2], [3]], [[0], [0], [0]]]]]⟩ 0
    ∧ (SpharmCoeff.sortH
        { coeffsRef := 0, errorsRef := none, epochs := [RFloat.val 2000],
          unit := "stokes", error_kind := none, name := none }
        ⟨[[[[[1], [2], [3]], [[0], [0], [0]]]]]⟩).1.get 0
      = Heap.get ⟨[[[[[1], [2], [3]], [[0], [0], [0]]]]]⟩ 0
    ∧ (∀ out,
        (ReplaceCoeff.applyToH
            { indice := Indice.single 0 2 0, coeffs := [[7]], epochs := [RFloat.val 2000],
              unit := "stokes", errors := none, name := none }
            { coeffsRef := 0, errorsRef := none, epochs := [RFloat.val 2000],
              unit := "stokes", error_kind := none, name := none }
            ⟨[[[[[1], [2], [3]], [[0], [0], [0]]]]]⟩).2 = Except.ok out →
          (Heap.arrays ⟨[[[[[1], [2], [3]], [[0], [0], [0]]]]]⟩).length ≤ out.coeffsRef) :=
  C9_no_mutation ⟨[[[[[1], [2], [3]], [[0], [0], [0]]]]]⟩
    { indice := Indice.single 0 2 0, coeffs := [[7]], epochs := [RFloat.val 2000],
      unit := "stokes", errors := none, name := none }
    { coeffsRef := 0, errorsRef := none, epochs := [RFloat.val 2000],
      unit := "stokes", error_kind := none, name := none }
    0 (by simp)

/-!  Behaviour of the matched-path alignment loop.  -/

lemma countP_comp_map {α β : Type} (g : α → β) (p : β → Bool) (l : List α) :
    (l.map g).countP p = l.countP (fun a => p (g a)) := by
  induction l with
  | nil => rfl
  | cons a l ih => simp [List.countP_cons, ih]

lemma matchLoop_count (op : Grid → Grid → Grid) (ep : List RFloat) (cs : Batch) :
    ∀ (pairs : List (Nat × RFloat)) (acc : Batch) (c : Nat),
      (SpharmCoeff.matchLoop op ep cs pairs acc c).2 =
        c + pairs.countP (fun p => acceptsTight ep p.2) := by
  intro pairs
  induction pairs with
  | nil => intro acc c; simp [SpharmCoeff.matchLoop]
  | cons p rest ih =>
    intro acc c
    obtain ⟨i, t⟩ := p
    simp only [SpharmCoeff.matchLoop]
    by_cases hacc : acceptsTight ep t = true
    · rw [if_pos hacc, ih]
      simp [List.countP_cons, hacc]
      omega
    · rw [if_neg (by simpa using hacc), ih]
      simp only [List.countP_cons]
      rw [Bool.not_eq_true] at hacc
      simp [hacc]

lemma epochs_countP_enum (l : List RFloat) (p : RFloat → Bool) :
    (l.enum.countP fun q => p q.2) = l.countP p := by
  have h1 : l.enum.map Prod.snd = l := List.enum_map_snd l
  calc (l.enum.countP fun q => p q.2)
      = (l.enum.map Prod.snd).countP p := by rw [countP_comp_map]
    _ = l.countP p := by rw [h1]

/-- On the matched path, the final match count of `__add__`/`__sub__` equals
the number of left-operand epochs accepted by the strict `< 0.05` search. -/
lemma matched_count (a b : SpharmCoeff) (op : Grid → Grid → Grid) :
    (SpharmCoeff.matchLoop op b.epochs b.coeffs a.epochs.enum a.coeffs 0).2 =
      a.epochs.countP (fun t => acceptsTight b.epochs t) := by
  rw [matchLoop_count, epochs_countP_enum]
  simp

lemma add_matched_cases (a b : SpharmCoeff)
    (hsh : Batch.shapeB a.coeffs ≠ Batch.shapeB b.coeffs)
    (htail : SpharmCoeff.tailShape a.coeffs = SpharmCoeff.tailShape b.coeffs) :
    (a.epochs.countP (fun t => acceptsTight b.epochs t) = a.epochs.length →
      ∃ out, SpharmCoeff.add a b = Except.ok out)
    ∧ (a.epochs.countP (fun t => acceptsTight b.epochs t) ≠ a.epochs.length →
      SpharmCoeff.add a b =
        Except.error ("Invalid value of add_counts <"
          ++ toString (a.epochs.countP (fun t => acceptsTight b.epochs t)) ++ ">, must be "
          ++ toString a.epochs.length ++ ".")) := by
  have hcond :
      ¬ (Batch.shapeB a.coeffs = Batch.shapeB b.coeffs ∧ allclose a.epochs b.epochs = true) :=
    fun hp => hsh hp.1
  have hcnt := matched_count a b Grid.add
  constructor
  · intro hc
    refine ⟨{ a with
      coeffs := (SpharmCoeff.matchLoop Grid.add b.epochs b.coeffs a.epochs.enum a.coeffs 0).1 }, ?_⟩
    unfold SpharmCoeff.add
    rw [if_neg hcond, if_pos htail, if_pos (by rw [hcnt]; exact hc)]
  · intro hc
    unfold SpharmCoeff.add
    rw [if_neg hcond, if_pos htail, if_neg (by rw [hcnt]; exact hc), hcnt]

lemma sub_matched_cases (a b : SpharmCoeff)
    (hsh : Batch.shapeB a.coeffs ≠ Batch.shapeB b.coeffs)
    (htail : SpharmCoeff.tailShape a.coeffs = SpharmCoeff.tailShape b.coeffs) :
    (a.epochs.countP (fun t => acceptsTight b.epochs t) = a.epochs.length →
      ∃ out, SpharmCoeff.subS a b = Except.ok out)
    ∧ (a.epochs.countP (fun t => acceptsTight b.epochs t) ≠ a.epochs.length →
      SpharmCoeff.subS a b =
        Except.error ("Invalid value of sub_counts <"
          ++ toString (a.epochs.countP (fun t => acceptsTight b.epochs t)) ++ ">, must be "
          ++ toString a.epochs.length ++ ".")) := by
  have hcond :
      ¬ (Batch.shapeB a.coeffs = Batch.shapeB b.coeffs ∧ allclose a.epochs b.epochs = true) :=
    fun hp => hsh hp.1
  have hcnt := matched_count a b Grid.sub
  constructor
  · intro hc
    refine ⟨{ a with
      coeffs := (SpharmCoeff.matchLoop Grid.sub b.epochs b.coeffs a.epochs.enum a.coeffs 0).1 }, ?_⟩
    unfold SpharmCoeff.subS
    rw [if_neg hcond, if_pos htail, if_pos (by rw [hcnt]; exact hc)]
  · intro hc
    unfold SpharmCoeff.subS
    rw [if_neg hcond, if_pos htail, if_neg (by rw [hcnt]; exact hc), hcnt]

/-!  Single-epoch behaviour of `apply_to`, for the tolerance-boundary claim. -/

lemma exists_ok_of_isOk {e : Except String SpharmCoeff} (h : e.isOk = true) :
    ∃ out, e = Except.ok out := by
  cases e with
  | error msg => cases h
  | ok v => exact ⟨v, rfl⟩

lemma matchEpoch_of_nanmin_le (rp : ReplaceCoeff) (t : RFloat) (m : ℚ)
    (hc30 : rp.indice.isC30 = false)
    (hm : nanminList (residualOf rp.epochs t) = RFloat.val m) (hle : m ≤ 1/20) :
    rp.matchEpoch t = MatchOut.hit (idxOfVal m (residualOf rp.epochs t)) := by
  unfold ReplaceCoeff.matchEpoch
  rw [hc30]
  simp only [Bool.false_and, if_false, hm, nanargminList]
  have hf : (RFloat.val m).fgt (RFloat.val (1/20)) = false := by
    simp only [RFloat.fgt, decide_eq_false_iff_not]
    exact not_lt.mpr hle
  rw [hf]
  simp [hm]

lemma matchEpoch_of_nanmin_gt (rp : ReplaceCoeff) (t : RFloat) (m : ℚ)
    (hc30 : rp.indice.isC30 = false)
    (hm : nanminList (residualOf rp.epochs t) = RFloat.val m) (hgt : 1/20 < m) :
    rp.matchEpoch t = MatchOut.fail ("Invalid value of epoch " ++ t.fmt
      ++ ", which cannot be found in the replacement epochs.") := by
  unfold ReplaceCoeff.matchEpoch
  rw [hc30]
  simp only [Bool.false_and, if_false, hm]
  have hf : (RFloat.val m).fgt (RFloat.val (1/20)) = true := by
    simp only [RFloat.fgt, decide_eq_true_eq]
    exact hgt
  rw [hf]
  simp

lemma apply_to_singleton_cases (rp : ReplaceCoeff) (s : SpharmCoeff) (t : RFloat)
    (hep : s.epochs = [t]) (hname : rp.name = none) (hc30 : rp.indice.isC30 = false) :
    (∀ m : ℚ, nanminList (residualOf rp.epochs t) = RFloat.val m → m ≤ 1/20 →
      ∃ out, rp.apply_to s = Except.ok out)
    ∧ (∀ m : ℚ, nanminList (residualOf rp.epochs t) = RFloat.val m → 1/20 < m →
      rp.apply_to s = Except.error ("Invalid value of epoch " ++ t.fmt
        ++ ", which cannot be found in the replacement epochs.")) := by
  constructor
  · intro m hm hle
    have hhit := matchEpoch_of_nanmin_le rp t m hc30 hm hle
    apply exists_ok_of_isOk
    unfold ReplaceCoeff.apply_to
    rw [hep]
    simp only [List.enum_cons, List.enum_nil]
    simp only [ReplaceCoeff.applyLoop, hhit, hname]
    rfl
  · intro m hm hgt
    have hfail := matchEpoch_of_nanmin_gt rp t m hc30 hm hgt
    unfold ReplaceCoeff.apply_to
    rw [hep]
    simp only [List.enum_cons, List.enum_nil]
    simp only [ReplaceCoeff.applyLoop, hfail]

/-- C3 counterexample: in matched-path arithmetic combination, a left epoch
whose distance to the nearest right epoch is *exactly* the tolerance (0.05)
is rejected (`np.min(residual) < 0.05` is strict), so the operation fails;
the claim says a difference equal to the tolerance is accepted on every
epoch-matching operation. -/
theorem C3_boundary_counterexample :
    SpharmCoeff.add
        { coeffs := [[[[1]]]], epochs := [RFloat.val 2000], unit := "stokes",
          errors := none, error_kind := none, name := none }
        { coeffs := [[[[2]]], [[[2]]]],
          epochs := [RFloat.val (2000 + 1/20), RFloat.val 3000], unit := "stokes",
          errors := none, error_kind := none, name := none }
      = Except.error "Invalid value of add_counts <0>, must be 1." := by
  with_unfolding_all decide

/-- C3 amended: replacement application (`nanmin > 0.05` rejection) accepts a
minimum residual exactly at the tolerance and rejects one strictly above it,
while matched-path arithmetic combination (`min < 0.05` acceptance) rejects a
minimum residual exactly at the tolerance and accepts only strictly smaller
ones. -/
theorem C3_tolerance_boundary :
    (∀ (rp : ReplaceCoeff) (s : SpharmCoeff) (t : RFloat) (m : ℚ),
      s.epochs = [t] → rp.name = none → rp.indice.isC30 = false →
      nanminList (residualOf rp.epochs t) = RFloat.val m → m ≤ 1/20 →
      ∃ out, rp.apply_to s = Except.ok out)
    ∧ (∀ (rp : ReplaceCoeff) (s : SpharmCoeff) (t : RFloat) (m : ℚ),
      s.epochs = [t] → rp.name = none → rp.indice.isC30 = false →
      nanminList (residualOf rp.epochs t) = RFloat.val m → 1/20 < m →
      rp.apply_to s = Except.error ("Invalid value of epoch " ++ t.fmt
        ++ ", which cannot be found in the replacement epochs."))
    ∧ (∀ (a b : SpharmCoeff) (t : RFloat),
      Batch.shapeB a.coeffs ≠ Batch.shapeB b.coeffs →
      SpharmCoeff.tailShape a.coeffs = SpharmCoeff.tailShape b.coeffs →
      a.epochs = [t] →
      minList (residualOf b.epochs t) = RFloat.val (1/20) →
      SpharmCoeff.add a b = Except.error "Invalid value of add_counts <0>, must be 1."
      ∧ SpharmCoeff.subS a b = Except.error "Invalid value of sub_counts <0>, must be 1.")
    ∧ (∀ (a b : SpharmCoeff) (t : RFloat) (m : ℚ),
      Batch.shapeB a.coeffs ≠ Batch.shapeB b.coeffs →
      SpharmCoeff.tailShape a.coeffs = SpharmCoeff.tailShape b.coeffs →
      a.epochs = [t] →
      minList (residualOf b.epochs t) = RFloat.val m → m < 1/20 →
      (∃ out, SpharmCoeff.add a b = Except.ok out)
      ∧ (∃ out, SpharmCoeff.subS a b = Except.ok out)) := by
  refine ⟨?_, ?_, ?_, ?_⟩
  · intro rp s t m hep hname hc30 hm hle
    exact (apply_to_singleton_cases rp s t hep hname hc30).1 m hm hle
  · intro rp s t m hep hname hc30 hm hgt
    exact (apply_to_singleton_cases rp s t hep hname hc30).2 m hm hgt
  · intro a b t hsh htail hep hmin
    have hrej : acceptsTight b.epochs t = false := by
      simp only [acceptsTight, hmin, RFloat.flt, decide_eq_false_iff_not]
      exact lt_irrefl _
    have hcount : a.epochs.countP (fun x => acceptsTight b.epochs x) = 0 := by
      rw [hep]; simp [List.countP_cons, hrej]
    have hlen : a.epochs.length = 1 := by rw [hep]; rfl
    have h2 := (add_matched_cases a b hsh htail).2 (by rw [hcount, hlen]; decide)
    have h3 := (sub_matched_cases a b hsh htail).2 (by rw [hcount, hlen]; decide)
    rw [hcount, hlen] at h2 h3
    constructor
    · rw [h2]; decide
    · rw [h3]; decide
  · intro a b t m hsh htail hep hmin hlt
    have hacc : acceptsTight b.epochs t = true := by
      simp only [acceptsTight, hmin, RFloat.flt, decide_eq_true_eq]
      exact hlt
    have hcount : a.epochs.countP (fun x => acceptsTight b.epochs x) = a.epochs.length := by
      rw [hep]; simp [List.countP_cons, hacc]
    exact ⟨(add_matched_cases a b hsh htail).1 hcount,
           (sub_matched_cases a b hsh htail).1 hcount⟩

theorem C3_tolerance_boundary_witness :
    (∃ out, ReplaceCoeff.apply_to
        { indice := Indice.single 0 2 0, coeffs := [[7]],
          epochs := [RFloat.val (2000 + 1/20)], unit := "stokes",
          errors := none, name := none }
        { coeffs := [[[[1]]]], epochs := [RFloat.val 2000], unit := "stokes",
          errors := none, error_kind := none, name := none }
      = Except.ok out)
    ∧ ReplaceCoeff.apply_to
        { indice := Indice.single 0 2 0, coeffs := [[7]],
          epochs := [RFloat.val 2001], unit := "stokes",
          errors := none, name := none }
        { coeffs := [[[[1]]]], epochs := [RFloat.val 2000], unit := "stokes",
          errors := none, error_kind := none, name := none }
      = Except.error ("Invalid value of epoch " ++ (RFloat.val 2000).fmt
        ++ ", which cannot be found in the replacement epochs.")
    ∧ (SpharmCoeff.add
        { coeffs := [[[[1]]]], epochs := [RFloat.val 2000], unit := "stokes",
          errors := none, error_kind := none, name := none }
        { coeffs := [[[[2]]], [[[2]]]],
          epochs := [RFloat.val (2000 + 1/20), RFloat.val 3000], unit := "stokes",
          errors := none, error_kind := none, name := none }
      = Except.error "Invalid value of add_counts <0>, must be 1."
      ∧ SpharmCoeff.subS
        { coeffs := [[[[1]]]], epochs := [RFloat.val 2000], unit := "stokes",
          errors := none, error_kind := none, name := none }
        { coeffs := [[[[2]]], [[[2]]]],
          epochs := [RFloat.val (2000 + 1/20), RFloat.val 3000], unit := "stokes",
          errors := none, error_kind := none, name := none }
      = Except.error "Invalid value of sub_counts <0>, must be 1.")
    ∧ ((∃ out, SpharmCoeff.add
        { coeffs := [[[[1]]]], epochs := [RFloat.val 2000], unit := "stokes",
          errors := none, error_kind := none, name := none }
        { coeffs := [[[[2]]], [[[2]]]],
          epochs := [RFloat.val (2000 + 1/25), RFloat.val 3000], unit := "stokes",
          errors := none, error_kind := none, name := none }
      = Except.ok out)
      ∧ (∃ out, SpharmCoeff.subS
        { coeffs := [[[[1]]]], epochs := [RFloat.val 2000], unit := "stokes",
          errors := none, error_kind := none, name := none }
        { coeffs := [[[[2]]], [[[2]]]],
          epochs := [RFloat.val (2000 + 1/25), RFloat.val 3000], unit := "stokes",
          errors := none, error_kind := none, name := none }
      = Except.ok out)) :=
  ⟨C3_tolerance_boundary.1
      { indice := Indice.single 0 2 0, coeffs := [[7]],
        epochs := [RFloat.val (2000 + 1/20)], unit := "stokes",
        errors := none, name := none }
      { coeffs := [[[[1]]]], epochs := [RFloat.val 2000], unit := "stokes",
        errors := none, error_kind := none, name := none }
      (RFloat.val 2000) (1/20) rfl rfl (by decide)
      (by with_unfolding_all decide) (by norm_num),
   C3_tolerance_boundary.2.1
      { indice := Indice.single 0 2 0, coeffs := [[7]],
        epochs := [RFloat.val 2001], unit := "stokes",
        errors := none, name := none }
      { coeffs := [[[[1]]]], epochs := [RFloat.val 2000], unit := "stokes",
        errors := none, error_kind := none, name := none }
      (RFloat.val 2000) 1 rfl rfl (by decide)
      (by with_unfolding_all decide) (by norm_num),
   C3_tolerance_boundary.2.2.1
      { coeffs := [[[[1]]]], epochs := [RFloat.val 2000], unit := "stokes",
        errors := none, error_kind := none, name := none }
      { coeffs := [[[[2]]], [[[2]]]],
        epochs := [RFloat.val (2000 + 1/20), RFloat.val 3000], unit := "stokes",
        errors := none, error_kind := none, name := none }
      (RFloat.val 2000) (by decide) (by decide) rfl
      (by with_unfolding_all decide),
   C3_tolerance_boundary.2.2.2
      { coeffs := [[[[1]]]], epochs := [RFloat.val 2000], unit := "stokes",
        errors := none, error_kind := none, name := none }
      { coeffs := [[[[2]]], [[[2]]]],
        epochs := [RFloat.val (2000 + 1/25), RFloat.val 3000], unit := "stokes",
        errors := none, error_kind := none, name := none }
      (RFloat.val 2000) (1/25) (by decide) (by decide) rfl
      (by with_unfolding_all decide) (by norm_num)⟩

/-- C7 counterexample: on the matched path the failure message reports only
the mismatched match count, not the offending epoch: two left operands whose
single (offending) epochs differ by 1000 years produce the *same* error
value, so the error cannot report the offending epoch. -/
theorem C7_count_message_counterexample :
    SpharmCoeff.add
        { coeffs := [[[[1]]]], epochs := [RFloat.val 2000], unit := "stokes",
          errors := none, error_kind := none, name := none }
        { coeffs := [[[[2]]], [[[2]]]],
          epochs := [RFloat.val 2500, RFloat.val 2600], unit := "stokes",
          errors := none, error_kind := none, name := none }
      = Except.error "Invalid value of add_counts <0>, must be 1."
    ∧ SpharmCoeff.add
        { coeffs := [[[[1]]]], epochs := [RFloat.val 3000], unit := "stokes",
          errors := none, error_kind := none, name := none }
        { coeffs := [[[[2]]], [[[2]]]],
          epochs := [RFloat.val 2500, RFloat.val 2600], unit := "stokes",
          errors := none, error_kind := none, name := none }
      = Except.error "Invalid value of add_counts <0>, must be 1." := by
  constructor
  · with_unfolding_all decide
  · with_unfolding_all decide

/-- C7 amended: on the matched path, if any left-operand epoch has no
right-operand epoch within the tight tolerance then the whole operation fails
(no series is returned) with an error reporting the mismatched match count
(not the offending epoch value), and the operation succeeds exactly when
every left-operand epoch finds a match (matched count = left epoch count). -/
theorem C7_matched_path_failure (a b : SpharmCoeff)
    (hsh : Batch.shapeB a.coeffs ≠ Batch.shapeB b.coeffs)
    (htail : SpharmCoeff.tailShape a.coeffs = SpharmCoeff.tailShape b.coeffs) :
    ((∃ t ∈ a.epochs, acceptsTight b.epochs t = false) →
      ∃ c, c < a.epochs.length
        ∧ SpharmCoeff.add a b = Except.error ("Invalid value of add_counts <"
            ++ toString c ++ ">, must be " ++ toString a.epochs.length ++ ".")
        ∧ SpharmCoeff.subS a b = Except.error ("Invalid value of sub_counts <"
            ++ toString c ++ ">, must be " ++ toString a.epochs.length ++ "."))
    ∧ ((∀ t ∈ a.epochs, acceptsTight b.epochs t = true) →
      (∃ out, SpharmCoeff.add a b = Except.ok out)
      ∧ (∃ out, SpharmCoeff.subS a b = Except.ok out)) := by
  constructor
  · rintro ⟨t, ht, hrej⟩
    have hle : a.epochs.countP (fun x => acceptsTight b.epochs x) ≤ a.epochs.length :=
      List.countP_le_length _
    have hne : a.epochs.countP (fun x => acceptsTight b.epochs x) ≠ a.epochs.length := by
      intro heq
      have := List.countP_eq_length.mp heq t ht
      rw [hrej] at this
      cases this
    refine ⟨a.epochs.countP (fun x => acceptsTight b.epochs x), by omega, ?_, ?_⟩
    · exact (add_matched_cases a b hsh htail).2 hne
    · exact (sub_matched_cases a b hsh htail).2 hne
  · intro hall
    have hcount : a.epochs.countP (fun x => acceptsTight b.epochs x) = a.epochs.length :=
      List.countP_eq_length.mpr hall
    exact ⟨(add_matched_cases a b hsh htail).1 hcount,
           (sub_matched_cases a b hsh htail).1 hcount⟩

theorem C7_matched_path_failure_witness :
    (∃ c, c < 1
      ∧ SpharmCoeff.add
          { coeffs := [[[[1]]]], epochs := [RFloat.val 2000], unit := "stokes",
            errors := none, error_kind := none, name := none }
          { coeffs := [[[[2]]], [[[2]]]],
            epochs := [RFloat.val 2500, RFloat.val 2600], unit := "stokes",
            errors := none, error_kind := none, name := none }
        = Except.error ("Invalid value of add_counts <" ++ toString c
            ++ ">, must be " ++ toString 1 ++ ".")
      ∧ SpharmCoeff.subS
          { coeffs := [[[[1]]]], epochs := [RFloat.val 2000], unit := "stokes",
            errors := none, error_kind := none, name := none }
          { coeffs := [[[[2]]], [[[2]]]],
            epochs := [RFloat.val 2500, RFloat.val 2600], unit := "stokes",
            errors := none, error_kind := none, name := none }
        = Except.error ("Invalid value of sub_counts <" ++ toString c
            ++ ">, must be " ++ toString 1 ++ "."))
    ∧ ((∃ out, SpharmCoeff.add
          { coeffs := [[[[1]]]], epochs := [RFloat.val 2000], unit := "stokes",
            errors := none, error_kind := none, name := none }
          { coeffs := [[[[2]]], [[[2]]]],
            epochs := [RFloat.val (2000 + 1/25), RFloat.val 2600], unit := "stokes",
            errors := none, error_kind := none, name := none }
        = Except.ok out)
      ∧ (∃ out, SpharmCoeff.subS
          { coeffs := [[[[1]]]], epochs := [RFloat.val 2000], unit := "stokes",
            errors := none, error_kind := none, name := none }
          { coeffs := [[[[2]]], [[[2]]]],
            epochs := [RFloat.val (2000 + 1/25), RFloat.val 2600], unit := "stokes",
            errors := none, error_kind := none, name := none }
        = Except.ok out)) :=
  ⟨(C7_matched_path_failure
      { coeffs := [[[[1]]]], epochs := [RFloat.val 2000], unit := "stokes",
        errors := none, error_kind := none, name := none }
      { coeffs := [[[[2]]], [[[2]]]],
        epochs := [RFloat.val 2500, RFloat.val 2600], unit := "stokes",
        errors := none, error_kind := none, name := none }
      (by decide) (by decide)).1
    ⟨RFloat.val 2000, by simp, by with_unfolding_all decide⟩,
   (C7_matched_path_failure
      { coeffs := [[[[1]]]], epochs := [RFloat.val 2000], unit := "stokes",
        errors := none, error_kind := none, name := none }
      { coeffs := [[[[2]]], [[[2]]]],
        epochs := [RFloat.val (2000 + 1/25), RFloat.val 2600], unit := "stokes",
        errors := none, error_kind := none, name := none }
      (by decide) (by decide)).2
    (by
      intro t ht
      simp only [List.mem_singleton] at ht
      subst ht
      with_unfolding_all decide)⟩

/-- C4 counterexample: in matched-path subtraction, a NaN entry in the right
operand's epochs poisons `np.min(residual)` (NaN), so the `< 0.05` test fails
for the left epoch even though a non-NaN right epoch matches it exactly, and
the whole operation errors out; the claim says NaN entries are ignored by the
search in arithmetic combination as well. -/
theorem C4_nan_poisons_counterexample :
    SpharmCoeff.subS
        { coeffs := [[[[1]]]], epochs := [RFloat.val 2000], unit := "stokes",
          errors := none, error_kind := none, name := none }
        { coeffs := [[[[2]]], [[[2]]]],
          epochs := [RFloat.nan, RFloat.val 2000], unit := "stokes",
          errors := none, error_kind := none, name := none }
      = Except.error "Invalid value of sub_counts <0>, must be 1." := by
  with_unfolding_all decide

/-- A replacement table with one extra leading NaN epoch (and its value row
and, when present, error row). -/
def consNanRow (rp : ReplaceCoeff) (v w : List ℚ) : ReplaceCoeff :=
  { rp with
    epochs := RFloat.nan :: rp.epochs
    coeffs := v :: rp.coeffs
    errors := rp.errors.map (fun e => w :: e) }

lemma residual_cons_nan (es : List RFloat) (t : RFloat) :
    residualOf (RFloat.nan :: es) t = RFloat.nan :: residualOf es t := rfl

lemma nanmin_cons_nan (l : List RFloat) :
    nanminList (RFloat.nan :: l) = nanminList l := by
  simp [nanminList]

lemma idxOfVal_cons_nan (m : ℚ) (l : List RFloat) :
    idxOfVal m (RFloat.nan :: l) = idxOfVal m l + 1 := by
  simp [idxOfVal]

lemma matchEpoch_consNanRow (rp : ReplaceCoeff) (v w : List ℚ) (t : RFloat) :
    (consNanRow rp v w).matchEpoch t =
      match rp.matchEpoch t with
      | MatchOut.hit k => MatchOut.hit (k + 1)
      | o => o := by
  unfold ReplaceCoeff.matchEpoch
  have hind : (consNanRow rp v w).indice = rp.indice := rfl
  have heps : (consNanRow rp v w).epochs = RFloat.nan :: rp.epochs := rfl
  rw [hind, heps, residual_cons_nan]
  by_cases hskip : (rp.indice.isC30 && t.flt (RFloat.val 2018)) = true
  · rw [if_pos hskip, if_pos hskip]
  · rw [if_neg hskip, if_neg hskip]
    simp only [nanmin_cons_nan]
    cases hm : nanminList (residualOf rp.epochs t) with
    | nan =>
      by_cases hf : (RFloat.nan.fgt (RFloat.val (1/20))) = true
      · rw [if_pos hf, if_pos hf]
      · rw [if_neg hf, if_neg hf]
        simp [nanargminList, nanmin_cons_nan, hm]
    | val m =>
      by_cases hf : ((RFloat.val m).fgt (RFloat.val (1/20))) = true
      · rw [if_pos hf, if_pos hf]
      · rw [if_neg hf, if_neg hf]
        simp [nanargminList, nanmin_cons_nan, hm, idxOfVal_cons_nan]

lemma matchEpoch_consNanRow_skip (rp : ReplaceCoeff) (v w : List ℚ) (t : RFloat)
    (h : rp.matchEpoch t = MatchOut.skip) :
    (consNanRow rp v w).matchEpoch t = MatchOut.skip := by
  rw [matchEpoch_consNanRow, h]

lemma matchEpoch_consNanRow_fail (rp : ReplaceCoeff) (v w : List ℚ) (t : RFloat) (e : String)
    (h : rp.matchEpoch t = MatchOut.fail e) :
    (consNanRow rp v w).matchEpoch t = MatchOut.fail e := by
  rw [matchEpoch_consNanRow, h]

lemma matchEpoch_consNanRow_hit (rp : ReplaceCoeff) (v w : List ℚ) (t : RFloat) (k : Nat)
    (h : rp.matchEpoch t = MatchOut.hit k) :
    (consNanRow rp v w).matchEpoch t = MatchOut.hit (k + 1) := by
  rw [matchEpoch_consNanRow, h]

lemma applyLoop_consNanRow (rp : ReplaceCoeff) (v w : List ℚ) :
    ∀ (pairs : List (Nat × RFloat)) (cs : Batch) (es : Option Batch),
      (consNanRow rp v w).applyLoop pairs cs es = rp.applyLoop pairs cs es := by
  intro pairs
  induction pairs with
  | nil => intro cs es; rfl
  | cons p rest ih =>
    intro cs es
    obtain ⟨i, t⟩ := p
    cases hm : rp.matchEpoch t with
    | skip =>
      simp only [ReplaceCoeff.applyLoop, hm, matchEpoch_consNanRow_skip rp v w t hm]
      exact ih cs es
    | fail e =>
      simp only [ReplaceCoeff.applyLoop, hm, matchEpoch_consNanRow_fail rp v w t e hm]
    | hit k =>
      simp only [ReplaceCoeff.applyLoop, hm, matchEpoch_consNanRow_hit rp v w t k hm]
      cases he : rp.errors with
      | none =>
        have hce : (consNanRow rp v w).errors = none := by simp [consNanRow, he]
        rw [hce]
        exact ih _ _
      | some rerrs =>
        have hce : (consNanRow rp v w).errors = some (w :: rerrs) := by
          simp [consNanRow, he]
        rw [hce]
        cases es with
        | none => exact ih _ _
        | some errs => exact ih _ _

lemma apply_to_consNanRow (rp : ReplaceCoeff) (v w : List ℚ) (s : SpharmCoeff) :
    (consNanRow rp v w).apply_to s = rp.apply_to s := by
  unfold ReplaceCoeff.apply_to
  have hn : (consNanRow rp v w).name = rp.name := rfl
  rw [applyLoop_consNanRow, hn]

lemma minList_eq_nan_of_mem (l : List RFloat) (h : RFloat.nan ∈ l) :
    minList l = RFloat.nan := by
  induction l with
  | nil => cases h
  | cons x xs ih =>
    cases xs with
    | nil =>
      have hx : x = RFloat.nan := by
        have := h
        simp only [List.mem_singleton] at this
        exact this.symm
      subst hx
      rfl
    | cons y ys =>
      rcases List.mem_cons.mp h with hx | hmem
      · rw [← hx]
        show RFloat.nan.fmin (minList (y :: ys)) = RFloat.nan
        cases minList (y :: ys) <;> rfl
      · show x.fmin (minList (y :: ys)) = RFloat.nan
        rw [ih hmem]
        cases x <;> rfl

lemma acceptsTight_false_of_nan_mem (ep : List RFloat) (t : RFloat)
    (h : RFloat.nan ∈ ep) : acceptsTight ep t = false := by
  have hmem : RFloat.nan ∈ residualOf ep t := by
    simp only [residualOf, List.mem_map]
    exact ⟨RFloat.nan, h, rfl⟩
  simp [acceptsTight, minList_eq_nan_of_mem _ hmem, RFloat.flt]

/-- C4 amended: the replacement search (`nanmin`/`nanargmin`) ignores NaN
reference entries — a table with an extra NaN epoch behaves identically to
the table without it, on every series — while the matched-path arithmetic
search (`min`/`argmin`) is poisoned by a NaN reference entry: the minimum
becomes NaN, every left epoch is rejected (even one with an exact non-NaN
match) and the whole operation fails. -/
theorem C4_nan_reference_handling :
    (∀ (rp : ReplaceCoeff) (v w : List ℚ) (s : SpharmCoeff),
      (consNanRow rp v w).apply_to s = rp.apply_to s)
    ∧ (∀ (a b : SpharmCoeff),
      RFloat.nan ∈ b.epochs → 0 < a.epochs.length →
      Batch.shapeB a.coeffs ≠ Batch.shapeB b.coeffs →
      SpharmCoeff.tailShape a.coeffs = SpharmCoeff.tailShape b.coeffs →
      SpharmCoeff.add a b = Except.error ("Invalid value of add_counts <"
        ++ toString 0 ++ ">, must be " ++ toString a.epochs.length ++ ".")
      ∧ SpharmCoeff.subS a b = Except.error ("Invalid value of sub_counts <"
        ++ toString 0 ++ ">, must be " ++ toString a.epochs.length ++ ".")) := by
  constructor
  · exact apply_to_consNanRow
  · intro a b hnan hlen hsh htail
    have hcnt : a.epochs.countP (fun x => acceptsTight b.epochs x) = 0 :=
      List.countP_eq_zero.mpr (fun t _ => by
        simp [acceptsTight_false_of_nan_mem b.epochs t hnan])
    have hne : a.epochs.countP (fun x => acceptsTight b.epochs x) ≠ a.epochs.length := by
      omega
    have h2 := (add_matched_cases a b hsh htail).2 hne
    have h3 := (sub_matched_cases a b hsh htail).2 hne
    rw [hcnt] at h2 h3
    exact ⟨h2, h3⟩

theorem C4_nan_reference_handling_witness :
    (ReplaceCoeff.apply_to
        (consNanRow
          { indice := Indice.single 0 2 0, coeffs := [[7]],
            epochs := [RFloat.val 2000], unit := "stokes",
            errors := none, name := none } [9] [])
        { coeffs := [[[[1]]]], epochs := [RFloat.val 2000], unit := "stokes",
          errors := none, error_kind := none, name := none }
      = ReplaceCoeff.apply_to
        { indice := Indice.single 0 2 0, coeffs := [[7]],
          epochs := [RFloat.val 2000], unit := "stokes",
          errors := none, name := none }
        { coeffs := [[[[1]]]], epochs := [RFloat.val 2000], unit := "stokes",
          errors := none, error_kind := none, name := none })
    ∧ (SpharmCoeff.add
        { coeffs := [[[[1]]]], epochs := [RFloat.val 2000], unit := "stokes",
          errors := none, error_kind := none, name := none }
        { coeffs := [[[[2]]], [[[2]]]],
          epochs := [RFloat.nan, RFloat.val 2000], unit := "stokes",
          errors := none, error_kind := none, name := none }
      = Except.error ("Invalid value of add_counts <" ++ toString 0
          ++ ">, must be " ++ toString ([RFloat.val 2000] : List RFloat).length ++ ".")
      ∧ SpharmCoeff.subS
        { coeffs := [[[[1]]]], epochs := [RFloat.val 2000], unit := "stokes",
          errors := none, error_kind := none, name := none }
        { coeffs := [[[[2]]], [[[2]]]],
          epochs := [RFloat.nan, RFloat.val 2000], unit := "stokes",
          errors := none, error_kind := none, name := none }
      = Except.error ("Invalid value of sub_counts <" ++ toString 0
          ++ ">, must be " ++ toString ([RFloat.val 2000] : List RFloat).length ++ ".")) :=
  ⟨C4_nan_reference_handling.1
      { indice := Indice.single 0 2 0, coeffs := [[7]],
        epochs := [RFloat.val 2000], unit := "stokes",
        errors := none, name := none } [9] []
      { coeffs := [[[[1]]]], epochs := [RFloat.val 2000], unit := "stokes",
        errors := none, error_kind := none, name := none },
   C4_nan_reference_handling.2
      { coeffs := [[[[1]]]], epochs := [RFloat.val 2000], unit := "stokes",
        errors := none, error_kind := none, name := none }
      { coeffs := [[[[2]]], [[[2]]]],
        epochs := [RFloat.nan, RFloat.val 2000], unit := "stokes",
        errors := none, error_kind := none, name := none }
      (by simp) (by decide) (by decide) (by decide)⟩

/-!  Row-level behaviour of the replacement loop, for the cutover claim.  -/

/-- The `i`-th row of an optional error batch. -/
def optRow (ob : Option Batch) (i : Nat) : Option Grid := ob.map (fun b => b.getD i [])

lemma getD_set_ne' {α : Type} (l : List α) (j i : Nat) (x d : α) (h : j ≠ i) :
    (l.set j x).getD i d = l.getD i d := by
  simp [List.getD_eq_getElem?_getD, List.getElem?_set_ne h]

lemma getD_set_self_of_lt {α : Type} (l : List α) (i : Nat) (x d : α) (h : i < l.length) :
    (l.set i x).getD i d = x := by
  simp [List.getD_eq_getElem?_getD, List.getElem?_set_eq_of_lt x h]

lemma applyLoop_all_skip (rp : ReplaceCoeff) :
    ∀ (pairs : List (Nat × RFloat)) (cs : Batch) (es : Option Batch),
      (∀ p ∈ pairs, rp.matchEpoch p.2 = MatchOut.skip) →
      rp.applyLoop pairs cs es = Except.ok (cs, es) := by
  intro pairs
  induction pairs with
  | nil => intro cs es _; rfl
  | cons p rest ih =>
    intro cs es hall
    obtain ⟨i, t⟩ := p
    have hskip := hall (i, t) (List.mem_cons_self _ _)
    simp only [ReplaceCoeff.applyLoop, hskip]
    exact ih cs es (fun q hq => hall q (List.mem_cons_of_mem _ hq))

lemma applyLoop_preserve (rp : ReplaceCoeff) (i : Nat) :
    ∀ (pairs : List (Nat × RFloat)) (cs : Batch) (es : Option Batch) (cs' : Batch)
      (es' : Option Batch),
      rp.applyLoop pairs cs es = Except.ok (cs', es') →
      (∀ t, (i, t) ∈ pairs → rp.matchEpoch t = MatchOut.skip) →
      cs'.getD i [] = cs.getD i [] ∧ optRow es' i = optRow es i := by
  intro pairs
  induction pairs with
  | nil =>
    intro cs es cs' es' hok _
    simp only [ReplaceCoeff.applyLoop] at hok
    injection hok with h
    injection h with h1 h2
    rw [← h1, ← h2]
    exact ⟨rfl, rfl⟩
  | cons p rest ih =>
    intro cs es cs' es' hok hsk
    obtain ⟨j, t⟩ := p
    cases hm : rp.matchEpoch t with
    | skip =>
      have hok' : rp.applyLoop rest cs es = Except.ok (cs', es') := by
        simpa only [ReplaceCoeff.applyLoop, hm] using hok
      exact ih cs es cs' es' hok' (fun t' ht' => hsk t' (List.mem_cons_of_mem _ ht'))
    | fail e =>
      exfalso
      have : (Except.error e : Except String (Batch × Option Batch)) = Except.ok (cs', es') := by
        simpa only [ReplaceCoeff.applyLoop, hm] using hok
      cases this
    | hit k =>
      by_cases hij : j = i
      · exfalso
        subst hij
        have := hsk t (List.mem_cons_self _ _)
        rw [hm] at this
        cases this
      · have hok' := hok
        simp only [ReplaceCoeff.applyLoop, hm] at hok'
        obtain ⟨h1, h2⟩ := ih _ _ cs' es' hok'
          (fun t' ht' => hsk t' (List.mem_cons_of_mem _ ht'))
        constructor
        · rw [h1, getD_set_ne' _ _ _ _ _ hij]
        · rw [h2]
          cases he : rp.errors with
          | none => rfl
          | some rerrs =>
            cases es with
            | none => rfl
            | some errs =>
              simp [optRow, he, List.getElem?_set_ne hij]

lemma applyLoop_write (rp : ReplaceCoeff) (i : Nat) (t : RFloat) (k : Nat) :
    ∀ (pairs : List (Nat × RFloat)) (cs : Batch) (es : Option Batch) (cs' : Batch)
      (es' : Option Batch),
      (pairs.map Prod.fst).Nodup →
      (i, t) ∈ pairs →
      rp.matchEpoch t = MatchOut.hit k →
      i < cs.length →
      rp.applyLoop pairs cs es = Except.ok (cs', es') →
      cs'.getD i [] = writeCells (cs.getD i []) rp.indice.cells (rp.coeffs.getD k []) := by
  intro pairs
  induction pairs with
  | nil => intro cs es cs' es' _ hmem _ _ _; cases hmem
  | cons p rest ih =>
    intro cs es cs' es' hnd hmem hhit hlt hok
    obtain ⟨j, t'⟩ := p
    have hnd' : (rest.map Prod.fst).Nodup := by
      simpa [List.nodup_cons] using hnd.of_cons
    rcases List.mem_cons.mp hmem with heq | hmemr
    · injection heq with hij htt
      subst hij
      subst htt
      have hok' := hok
      simp only [ReplaceCoeff.applyLoop, hhit] at hok'
      have hnotin : i ∉ rest.map Prod.fst := by
        have := hnd
        rw [List.map_cons, List.nodup_cons] at this
        exact this.1
      have hpres := applyLoop_preserve rp i rest _ _ cs' es' hok'
        (fun t'' ht'' => absurd (List.mem_map_of_mem Prod.fst ht'') hnotin)
      rw [hpres.1, getD_set_self_of_lt _ _ _ _ hlt]
    · have hji : j ≠ i := by
        intro hEq
        subst hEq
        have hin : j ∈ rest.map Prod.fst := List.mem_map_of_mem Prod.fst hmemr
        rw [List.map_cons, List.nodup_cons] at hnd
        exact hnd.1 hin
      cases hm : rp.matchEpoch t' with
      | skip =>
        have hok' : rp.applyLoop rest cs es = Except.ok (cs', es') := by
          simpa only [ReplaceCoeff.applyLoop, hm] using hok
        exact ih cs es cs' es' hnd' hmemr hhit hlt hok'
      | fail e =>
        exfalso
        have : (Except.error e : Except String (Batch × Option Batch)) = Except.ok (cs', es') := by
          simpa only [ReplaceCoeff.applyLoop, hm] using hok
        cases this
      | hit k' =>
        have hok' := hok
        simp only [ReplaceCoeff.applyLoop, hm] at hok'
        have := ih _ _ cs' es' hnd' hmemr hhit (by rw [List.length_set]; exact hlt) hok'
        rw [this, getD_set_ne' _ _ _ _ _ hji]

lemma apply_to_ok_parts (rp : ReplaceCoeff) (s : SpharmCoeff) (out : SpharmCoeff)
    (h : rp.apply_to s = Except.ok out) :
    ∃ cs es, rp.applyLoop s.epochs.enum s.coeffs s.errors = Except.ok (cs, es)
      ∧ out.coeffs = cs ∧ out.errors = es := by
  unfold ReplaceCoeff.apply_to at h
  rcases hL : rp.applyLoop s.epochs.enum s.coeffs s.errors with e | pr
  · rw [hL] at h
    cases h
  · obtain ⟨cs, es⟩ := pr
    rw [hL] at h
    refine ⟨cs, es, rfl, ?_⟩
    cases hname : rp.name with
    | none =>
      rw [hname] at h
      injection h with h2
      rw [← h2]
      exact ⟨rfl, rfl⟩
    | some l =>
      rw [hname] at h
      by_cases hl : l.length = 2
      · simp only [hl, if_true] at h
        injection h with h2
        rw [← h2]
        exact ⟨rfl, rfl⟩
      · simp only [hl, if_false] at h
        cases h

lemma mem_enum_getD (l : List RFloat) (i : Nat) (hi : i < l.length) :
    (i, l.getD i RFloat.nan) ∈ l.enum := by
  rw [List.mem_enum_iff_get?]
  simp [List.get?_eq_getElem?, List.getElem?_eq_getElem hi, List.getD_eq_getElem _ _ hi]

lemma enum_mem_snd_eq (l : List RFloat) (i : Nat) (t : RFloat)
    (h : (i, t) ∈ l.enum) : t = l.getD i RFloat.nan := by
  rw [List.mem_enum_iff_get?] at h
  have hi : i < l.length := by
    by_contra hge
    rw [List.get?_eq_getElem?, List.getElem?_eq_none (by omega)] at h
    cases h
  rw [List.get?_eq_getElem?, List.getElem?_eq_getElem hi] at h
  injection h with h2
  rw [List.getD_eq_getElem _ _ hi]
  exact h2.symm

lemma cell_setCell_c30 (g : Grid) (v : ℚ) (h0 : 0 < g.length)
    (h3 : 3 < (g.getD 0 []).length) (hm : 0 < ((g.getD 0 []).getD 3 []).length) :
    Grid.cell (Grid.setCell g 0 3 0 v) 0 3 0 = v := by
  unfold Grid.cell Grid.setCell
  rw [getD_set_self_of_lt _ _ _ _ h0, getD_set_self_of_lt _ _ _ _ h3,
    getD_set_self_of_lt _ _ _ _ hm]

lemma matchEpoch_not_skip (rp : ReplaceCoeff) (t : RFloat)
    (hc30 : rp.indice.isC30 = false) : rp.matchEpoch t ≠ MatchOut.skip := by
  unfold ReplaceCoeff.matchEpoch
  rw [hc30]
  simp only [Bool.false_and, Bool.false_eq_true, if_false]
  intro h
  split at h
  · cases h
  · split at h
    · cases h
    · cases h

lemma isC30_iff (ind : Indice) : ind.isC30 = true ↔ ind = Indice.single 0 3 0 := by
  cases ind with
  | single c l m =>
    rcases c with _ | c <;> rcases l with _ | _ | _ | _ | l <;> rcases m with _ | m <;>
      simp [Indice.isC30]
  | multi cs ls ms => simp [Indice.isC30]

/-- C5: when a replacement table targets exactly the degree-3 zonal cell
(0,3,0): (a) every target epoch strictly before 2018 keeps its coefficient
row and error row unchanged; (b) if all epochs are before 2018 the
replacement succeeds and returns the series unchanged whatever the table
epochs are (no epoch-match is attempted); (c) every epoch not before 2018
has the addressed cell overwritten with the matched replacement value;
(d) for any other index set no epoch is ever skipped; (e) the exemption test
recognises exactly the index set (0,3,0). -/
theorem C5_degree3_zonal_cutover :
    (∀ (rp : ReplaceCoeff) (s : SpharmCoeff) (out : SpharmCoeff) (i : Nat),
      rp.indice = Indice.single 0 3 0 →
      rp.apply_to s = Except.ok out →
      (s.epochs.getD i RFloat.nan).flt (RFloat.val 2018) = true →
      out.coeffs.getD i [] = s.coeffs.getD i []
      ∧ optRow out.errors i = optRow s.errors i)
    ∧ (∀ (rp : ReplaceCoeff) (s : SpharmCoeff),
      rp.indice = Indice.single 0 3 0 → rp.name = none →
      (∀ t ∈ s.epochs, t.flt (RFloat.val 2018) = true) →
      rp.apply_to s = Except.ok s)
    ∧ (∀ (rp : ReplaceCoeff) (s : SpharmCoeff) (out : SpharmCoeff) (i k : Nat),
      rp.indice = Indice.single 0 3 0 →
      s.coeffs.length = s.epochs.length →
      i < s.epochs.length →
      rp.apply_to s = Except.ok out →
      (s.epochs.getD i RFloat.nan).flt (RFloat.val 2018) = false →
      rp.matchEpoch (s.epochs.getD i RFloat.nan) = MatchOut.hit k →
      out.coeffs.getD i [] =
        writeCells (s.coeffs.getD i []) rp.indice.cells (rp.coeffs.getD k [])
      ∧ (0 < (rp.coeffs.getD k []).length →
         0 < (s.coeffs.getD i []).length →
         3 < ((s.coeffs.getD i []).getD 0 []).length →
         0 < (((s.coeffs.getD i []).getD 0 []).getD 3 []).length →
         Grid.cell (out.coeffs.getD i []) 0 3 0 = (rp.coeffs.getD k []).getD 0 0))
    ∧ (∀ (rp : ReplaceCoeff) (t : RFloat),
      rp.indice.isC30 = false → rp.matchEpoch t ≠ MatchOut.skip)
    ∧ (∀ ind : Indice, ind.isC30 = true ↔ ind = Indice.single 0 3 0) := by
  refine ⟨?_, ?_, ?_, matchEpoch_not_skip, isC30_iff⟩
  · intro rp s out i hind hok hflt
    obtain ⟨cs, es, hL, hc, he⟩ := apply_to_ok_parts rp s out hok
    have hsk : ∀ t, (i, t) ∈ s.epochs.enum → rp.matchEpoch t = MatchOut.skip := by
      intro t ht
      have ht2 : t = s.epochs.getD i RFloat.nan := enum_mem_snd_eq _ _ _ ht
      have hflt2 : t.flt (RFloat.val 2018) = true := by rw [ht2]; exact hflt
      unfold ReplaceCoeff.matchEpoch
      rw [hind]
      simp [Indice.isC30, hflt2]
    obtain ⟨h1, h2⟩ := applyLoop_preserve rp i s.epochs.enum s.coeffs s.errors cs es hL hsk
    constructor
    · rw [hc]; exact h1
    · rw [he]; exact h2
  · intro rp s hind hname hall
    have hskips : ∀ p ∈ s.epochs.enum, rp.matchEpoch p.2 = MatchOut.skip := by
      intro p hp
      obtain ⟨i, t⟩ := p
      have hm : t ∈ s.epochs := by
        have := List.mem_map_of_mem Prod.snd hp
        rwa [List.enum_map_snd s.epochs] at this
      unfold ReplaceCoeff.matchEpoch
      rw [hind]
      simp [Indice.isC30, hall t hm]
    have hL := applyLoop_all_skip rp s.epochs.enum s.coeffs s.errors hskips
    unfold ReplaceCoeff.apply_to
    rw [hL, hname]
  · intro rp s out i k hind hlen hi hok hflt hhit
    obtain ⟨cs, es, hL, hc, he⟩ := apply_to_ok_parts rp s out hok
    have hnd : (s.epochs.enum.map Prod.fst).Nodup := by
      rw [List.enum_map_fst]
      exact List.nodup_range _
    have hmem := mem_enum_getD s.epochs i hi
    have hw := applyLoop_write rp i _ k s.epochs.enum s.coeffs s.errors cs es hnd hmem hhit
      (by omega) hL
    have hrow : out.coeffs.getD i [] =
        writeCells (s.coeffs.getD i []) rp.indice.cells (rp.coeffs.getD k []) := by
      rw [hc]; exact hw
    refine ⟨hrow, ?_⟩
    intro hv h0 h3 hm0
    rw [hrow, hind]
    rcases hvs : rp.coeffs.getD k [] with _ | ⟨v, rest⟩
    · rw [hvs] at hv; cases hv
    · show Grid.cell (Grid.setCell (s.coeffs.getD i []) 0 3 0 v) 0 3 0 = v
      exact cell_setCell_c30 _ _ h0 h3 hm0

/-- Concrete sample data for the cutover witness: a two-epoch series at
2017.9 and 2018.1 and a degree-3-zonal table covering both epochs. -/
def c5s : SpharmCoeff :=
  { coeffs := [[[[1], [2], [3], [9]], [[0], [0], [0], [0]]],
               [[[1], [2], [3], [9]], [[0], [0], [0], [0]]]],
    epochs := [RFloat.val 2017, RFloat.val 2019], unit := "stokes",
    errors := none, error_kind := none, name := none }

def c5rp : ReplaceCoeff :=
  { indice := Indice.single 0 3 0, coeffs := [[7], [8]],
    epochs := [RFloat.val 2017, RFloat.val 2019], unit := "stokes",
    errors := none, name := none }

def c5out : SpharmCoeff :=
  { c5s with coeffs := [[[[1], [2], [3], [9]], [[0], [0], [0], [0]]],
                        [[[1], [2], [3], [8]], [[0], [0], [0], [0]]]] }

def c5rpB : ReplaceCoeff :=
  { indice := Indice.single 0 3 0, coeffs := [], epochs := [], unit := "stokes",
    errors := none, name := none }

def c5sB : SpharmCoeff :=
  { c5s with coeffs := [[[[1], [2], [3], [9]], [[0], [0], [0], [0]]]],
             epochs := [RFloat.val 2017] }

set_option maxRecDepth 8000 in
theorem C5_degree3_zonal_cutover_witness :
    (c5out.coeffs.getD 0 [] = c5s.coeffs.getD 0 []
      ∧ optRow c5out.errors 0 = optRow c5s.errors 0)
    ∧ ReplaceCoeff.apply_to c5rpB c5sB = Except.ok c5sB
    ∧ (c5out.coeffs.getD 1 [] =
        writeCells (c5s.coeffs.getD 1 []) c5rp.indice.cells (c5rp.coeffs.getD 1 [])
      ∧ Grid.cell (c5out.coeffs.getD 1 []) 0 3 0 = (c5rp.coeffs.getD 1 []).getD 0 0)
    ∧ ReplaceCoeff.matchEpoch { c5rp with indice := Indice.single 0 2 0 }
        (RFloat.val 2000) ≠ MatchOut.skip
    ∧ ((Indice.single 0 2 0).isC30 = true ↔ Indice.single 0 2 0 = Indice.single 0 3 0) :=
  ⟨C5_degree3_zonal_cutover.1 c5rp c5s c5out 0 rfl
      (by with_unfolding_all decide) (by with_unfolding_all decide),
   C5_degree3_zonal_cutover.2.1 c5rpB c5sB rfl rfl (by with_unfolding_all decide),
   (fun hc => ⟨hc.1, hc.2 (by decide) (by decide) (by decide) (by decide)⟩)
     (C5_degree3_zonal_cutover.2.2.1 c5rp c5s c5out 1 1 rfl (by decide) (by decide)
       (by with_unfolding_all decide) (by with_unfolding_all decide)
       (by with_unfolding_all decide)),
   C5_degree3_zonal_cutover.2.2.2.1 { c5rp with indice := Indice.single 0 2 0 }
     (RFloat.val 2000) (by decide),
   C5_degree3_zonal_cutover.2.2.2.2 (Indice.single 0 2 0)⟩
